import Mathlib

/-!
# libtrace AF_XDP input format (`lib/format_linux_xdp.c`)

A shallow embedding of the receive engine of `format_linux_xdp.c`.

* Machine integers are natural numbers or integers with explicit reduction
  modulo `2^32` / `2^64` at every place where the C code converts or may wrap.
* Calls into libbpf, the kernel and the libtrace core are not part of the
  file.  Their results are supplied by explicit environment records, and the
  calls the code makes on the rings are recorded, in program order, in a list
  of `xsk_call` events.
* Pointers are integers; a pointer into the stream list is the list index.
* A function that dereferences a pointer which is `NULL`, or whose loop does
  not finish within the supplied environment, yields `none`.
-/

namespace LibtraceXdp

/-! ## Machine integers -/

/-- Conversion of an integer value to `uint32_t`. -/
def u32 (x : Int) : Nat := (x % 4294967296).toNat

/-- Conversion of an integer value to `uint64_t`. -/
def u64 (x : Int) : Nat := (x % 18446744073709551616).toNat

/-- Conversion of an integer value to a 32-bit `int` (two's complement). -/
def c_int (x : Int) : Int :=
  if x % 4294967296 < 2147483648 then x % 4294967296 else x % 4294967296 - 4294967296

/-! ## Constants -/

/-- From the source: `#define NUM_FRAMES 4096`. -/
def NUM_FRAMES : Nat := 4096

/-- From the source: `#define RX_BATCH_SIZE 64`. -/
def RX_BATCH_SIZE : Nat := 64

/-- Constants the file takes from headers outside it: the size of
`libtrace_xdp_meta_t` (`format_linux_xdp.h`) and two libbpf defaults
(`bpf/xsk.h`).  They are parameters of the embedding. -/
structure xsk_consts where
  sizeof_libtrace_xdp_meta_t : Nat
  XSK_UMEM__DEFAULT_FRAME_SIZE : Nat
  XSK_RING_PROD__DEFAULT_NUM_DESCS : Nat
  deriving DecidableEq, Repr

/-- From the source: `#define FRAME_HEADROOM sizeof(libtrace_xdp_meta_t)`. -/
def FRAME_HEADROOM (c : xsk_consts) : Nat := c.sizeof_libtrace_xdp_meta_t

/-- From the source: `#define FRAME_SIZE XSK_UMEM__DEFAULT_FRAME_SIZE`. -/
def FRAME_SIZE (c : xsk_consts) : Nat := c.XSK_UMEM__DEFAULT_FRAME_SIZE

/-- The values the constants have with libbpf's `xsk.h` (frame size 4096,
default ring depth 2048) and a packed 8+4 byte metadata header. -/
def libbpf_consts : xsk_consts :=
  { sizeof_libtrace_xdp_meta_t := 12
    XSK_UMEM__DEFAULT_FRAME_SIZE := 4096
    XSK_RING_PROD__DEFAULT_NUM_DESCS := 2048 }

/-! ## Data model -/

/-- Result of `clock_gettime`. -/
structure timespec where
  tv_sec : Int
  tv_nsec : Int
  deriving DecidableEq, Repr

/-- The fields of `struct xsk_umem_info` the code reads back: the queue the
pool was configured for and the base pointer of the frame region. -/
structure xsk_umem_info where
  xsk_if_queue : Int
  buffer : Int
  deriving DecidableEq, Repr

/-- The field of `struct xsk_socket_info` the code reads back: its pool. -/
structure xsk_socket_info where
  umem : xsk_umem_info
  deriving DecidableEq, Repr

/-- The per-stream record `struct xsk_per_stream`; `none` is `NULL`. -/
structure xsk_per_stream where
  umem : Option xsk_umem_info
  xsk : Option xsk_socket_info
  prev_rcvd : Nat
  prev_sys_time : Nat
  deriving DecidableEq, Repr

/-- The initialiser `{NULL,NULL,0,0}` used by the start functions. -/
def empty_stream : xsk_per_stream :=
  { umem := none, xsk := none, prev_rcvd := 0, prev_sys_time := 0 }

/-! ## Packet framing: timestamps -/

/-- The wall-clock sample in nanoseconds computed by `linux_xdp_get_time`:
`(uint64_t) ts.tv_sec * 1000000000ull + (uint64_t) ts.tv_nsec`. -/
def sys_time_of (ts : timespec) : Nat :=
  (u64 ts.tv_sec * 1000000000 + u64 ts.tv_nsec) % 18446744073709551616

/-- Embedding of `linux_xdp_get_time`; `ts` is what `clock_gettime` returned.
The result is the returned timestamp and the updated stream. -/
def linux_xdp_get_time (stream : xsk_per_stream) (ts : timespec) : Nat × xsk_per_stream :=
  let sys_time := sys_time_of ts
  let sys_time :=
    if stream.prev_sys_time ≥ sys_time then
      (stream.prev_sys_time + 1) % 18446744073709551616
    else sys_time
  (sys_time, { stream with prev_sys_time := sys_time })

/-- Successive calls of `linux_xdp_get_time` on one stream, one per clock
sample; the result is the list of returned timestamps, in order, and the
final stream. -/
def get_time_seq (stream : xsk_per_stream) : List timespec → List Nat × xsk_per_stream
  | [] => ([], stream)
  | ts :: rest =>
    let r := linux_xdp_get_time stream ts
    let q := get_time_seq r.2 rest
    (r.1 :: q.1, q.2)

/-! ## Calls on the rings and the socket -/

/-- The calls the code makes on libbpf's rings, the halt query, `poll` and
the messages it prints, recorded in program order. -/
inductive xsk_call where
  /-- The call `xsk_ring_prod__reserve(&umem->fq, nb, &idx)`. -/
  | fq_reserve (nb : Nat)
  /-- The store `*xsk_ring_prod__fill_addr(&umem->fq, idx) = addr`. -/
  | fq_fill_addr (idx : Nat) (addr : Nat)
  /-- The call `xsk_ring_prod__submit(&umem->fq, nb)`. -/
  | fq_submit (nb : Nat)
  /-- The call `xsk_ring_cons__release(&xsk->rx, nb)`. -/
  | rx_release (nb : Nat)
  /-- The call `xsk_ring_cons__peek(&xsk->rx, nb, &idx_rx)`. -/
  | rx_peek (nb : Nat)
  /-- The call `is_halted(libtrace)`. -/
  | is_halted
  /-- The call `poll(&fds, 1, timeout)`. -/
  | poll (timeout : Int)
  /-- A message printed with `fprintf(stderr, ...)`. -/
  | stderr (msg : String)
  deriving DecidableEq, Repr

/-! ## The trace handle and its error sink -/

/-- Error kinds passed to `trace_set_err`; `errno e` is a raw `errno` value. -/
inductive trace_err where
  | TRACE_ERR_NOERROR
  | TRACE_ERR_BAD_FORMAT
  | TRACE_ERR_INIT_FAILED
  | errno (e : Int)
  deriving DecidableEq, Repr

/-- The error record of a trace: kind and message. -/
structure libtrace_err_t where
  err_num : trace_err
  problem : String
  deriving DecidableEq, Repr

/-- The fields of `struct xsk_config` that the receive path sets or reads. -/
structure xsk_config where
  xdp_flags : Nat
  ifindex : Int
  ifname : String
  xsk_bind_flags : Nat
  deriving DecidableEq, Repr

/-- The format data `xdp_format_data_t`: configuration and the list of
streams.  The list `libtrace_list_t` is a Lean list of stream records. -/
structure xdp_format_data_t where
  cfg : xsk_config
  per_stream : List xsk_per_stream
  deriving DecidableEq, Repr

/-- The fields of `libtrace_t` the format uses; `format_data = none` is a
`NULL` format data pointer. -/
structure libtrace_t where
  format_data : Option xdp_format_data_t
  perpkt_thread_count : Int
  uridata : String
  err : libtrace_err_t
  deriving DecidableEq, Repr

/-- Modelled from the spec: `trace_set_err` of the libtrace core, which is
not in the source file: the error-reporting sink records kind and message. -/
def trace_set_err (libtrace : libtrace_t) (errcode : trace_err) (msg : String) : libtrace_t :=
  { libtrace with err := { err_num := errcode, problem := msg } }

/-! ## Packet records and frame memory -/

inductive buf_control_t where
  | TRACE_CTRL_PACKET
  | TRACE_CTRL_EXTERNAL
  deriving DecidableEq, Repr

inductive libtrace_rt_types_t where
  | TRACE_RT_DATA_XDP
  | other (n : Nat)
  deriving DecidableEq, Repr

/-- The fields of `libtrace_packet_t` that `linux_xdp_read_stream` assigns
(the back pointer `trace` is not represented: the trace is passed by value). -/
structure libtrace_packet_t where
  buf_control : buf_control_t
  type : libtrace_rt_types_t
  buffer : Int
  header : Int
  payload : Int
  error : Int
  deriving DecidableEq, Repr

/-- The metadata record `libtrace_xdp_meta_t` stored in a frame's headroom,
as a pair of values. -/
structure libtrace_xdp_meta_t where
  timestamp : Nat
  packet_len : Nat
  deriving DecidableEq, Repr

/-- Frame memory: the byte stored at each address (a value is taken modulo
256 when it is read). -/
abbrev frame_mem := Int → Nat

/-- The unsigned value of the `n` bytes at address `a`, lowest byte first
(little-endian, as on x86-64). -/
def read_le (mem : frame_mem) : Nat → Int → Nat
  | 0, _ => 0
  | n + 1, a => mem a % 256 + 256 * read_le mem n (a + 1)

/-- The memory after the value `v` has been stored in the `n` bytes at
address `a`, lowest byte first; the bytes outside `a, ..., a + n - 1` keep
their contents. -/
def write_le (mem : frame_mem) (n : Nat) (a : Int) (v : Nat) : frame_mem :=
  fun x => if a ≤ x ∧ x < a + n then (v / 256 ^ (x - a).toNat) % 256 else mem x

/-- Modelled from the spec: the layout of `libtrace_xdp_meta_t`, whose
declaration (`format_linux_xdp.h`) is not in the source file: an 8-byte
timestamp followed by a 4-byte original length.  This is the record a
`libtrace_xdp_meta_t *` with value `a` points to. -/
def meta_at (mem : frame_mem) (a : Int) : libtrace_xdp_meta_t :=
  { timestamp := read_le mem 8 a, packet_len := read_le mem 4 (a + 8) }

/-- The stores `meta->timestamp = timestamp; meta->packet_len = packet_len`
through a `libtrace_xdp_meta_t *meta` with value `a`: a 64-bit store at
offset 0 and a 32-bit store at offset 8. -/
def store_meta (mem : frame_mem) (a : Int) (timestamp packet_len : Nat) : frame_mem :=
  write_le (write_le mem 8 a timestamp) 4 (a + 8) packet_len

/-- From the source: `#define PACKET_META ((libtrace_xdp_meta_t *)(packet->header))`,
dereferenced. -/
def PACKET_META (mem : frame_mem) (packet : libtrace_packet_t) : libtrace_xdp_meta_t :=
  meta_at mem packet.header

/-- An RX descriptor `struct xdp_desc`: frame address and length. -/
structure xdp_desc where
  addr : Nat
  len : Nat
  deriving DecidableEq, Repr

/-- The libbpf inline `xsk_umem__get_data(umem_area, addr)`, which is
`&((char *)umem_area)[addr]`. -/
def xsk_umem__get_data (umem_area : Int) (addr : Nat) : Int := umem_area + addr

/-! ## Receive loop -/

/-- What the surroundings answer during one iteration of the wait loop of
`linux_xdp_read_stream`. -/
structure rx_iter where
  /-- The call `xsk_ring_cons__peek(&rx, nb, &idx_rx)`: the returned number
  of entries and the ring index stored in `idx_rx`. -/
  peek : Nat → Nat × Nat
  /-- The value of `is_halted(libtrace)`. -/
  halted : Int
  /-- The value of `poll(&fds, 1, 500)`, consulted only if `poll` is called. -/
  poll : Int
  /-- The value of `errno` after `poll`. -/
  errno : Int

/-- The surroundings of one call of `linux_xdp_read_stream`. -/
structure rx_env where
  /-- One answer record per iteration of the wait loop. -/
  iters : List rx_iter
  /-- The descriptor `*xsk_ring_cons__rx_desc(&rx, idx)`. -/
  rx_desc : Nat → xdp_desc
  /-- The clock sample taken for packet `i` of this call. -/
  clock : Nat → timespec

/-- How the wait loop ends. -/
inductive rx_wait where
  /-- The statement `return ret` after `is_halted` gave `ret != -1`. -/
  | halted (ret : Int)
  /-- The statement `return -1` after `poll` failed with `errno`. -/
  | poll_error (errno : Int)
  /-- The loop condition `rcvd < 1` became false. -/
  | rcvd (rcvd : Nat) (idx_rx : Nat)
  deriving DecidableEq, Repr

/-- The loop `while (rcvd < 1) { ... }` of `linux_xdp_read_stream`, entered
with `rcvd = 0`; `rcvd` is an `unsigned int` and `idx_rx` a `uint32_t`.  One
element of the list answers one iteration; `none` means the loop is still
running when the answers are used up. -/
def rx_wait_loop (nb_packets : Nat) : List rx_iter → Option (rx_wait × List xsk_call)
  | [] => none
  | it :: rest =>
    let rcvd := (it.peek nb_packets).1 % 4294967296
    let idx_rx := (it.peek nb_packets).2 % 4294967296
    if it.halted ≠ -1 then
      some (.halted it.halted, [.rx_peek nb_packets, .is_halted])
    else if rcvd < 1 then
      if it.poll < 0 then
        some (.poll_error it.errno, [.rx_peek nb_packets, .is_halted, .poll 500])
      else
        (rx_wait_loop nb_packets rest).map
          (fun r => (r.1, [.rx_peek nb_packets, .is_halted, .poll 500] ++ r.2))
    else
      some (.rcvd rcvd idx_rx, [.rx_peek nb_packets, .is_halted])

/-- The variables the delivery loop of `linux_xdp_read_stream` changes. -/
structure deliver_state where
  packet : List libtrace_packet_t
  mem : frame_mem
  stream : xsk_per_stream
  idx_rx : Nat

/-- Body of the loop `for (i = 0; i < rcvd; i++)` for one `i`: the packet
object `packet[i]` is filled in, the metadata is written through
`packet[i]->buffer` into the bytes of the frame, and `idx_rx` is
incremented.  A store past the end of the packet array has no effect here. -/
def deliver_packet (c : xsk_consts) (env : rx_env) (buffer : Int) (i : Nat)
    (st : deliver_state) : deliver_state :=
  let pkt_addr := (env.rx_desc st.idx_rx).addr
  let pkt_len := (env.rx_desc st.idx_rx).len
  let pkt_buffer := xsk_umem__get_data buffer pkt_addr
  let p : libtrace_packet_t :=
    { buf_control := .TRACE_CTRL_EXTERNAL
      type := .TRACE_RT_DATA_XDP
      buffer := pkt_buffer - FRAME_HEADROOM c
      header := pkt_buffer - FRAME_HEADROOM c
      payload := pkt_buffer
      error := 1 }
  let t := linux_xdp_get_time st.stream (env.clock i)
  { packet := st.packet.set i p
    mem := store_meta st.mem p.buffer t.1 pkt_len
    stream := t.2
    idx_rx := (st.idx_rx + 1) % 4294967296 }

/-- The loop `for (i = 0; i < rcvd; i++)`: the state after the iterations
`i = 0, ..., rcvd - 1`. -/
def deliver_loop (c : xsk_consts) (env : rx_env) (buffer : Int) :
    Nat → deliver_state → deliver_state
  | 0, st => st
  | k + 1, st => deliver_packet c env buffer k (deliver_loop c env buffer k st)

/-- The statement through which `linux_xdp_read_stream` returned. -/
inductive read_exit where
  | bad_format
  | halted
  | poll_error
  | packets
  deriving DecidableEq, Repr

/-- Result of `linux_xdp_read_stream`: the returned `int`, the return
statement taken, and everything the call may have changed. -/
structure read_out where
  ret : Int
  via : read_exit
  libtrace : libtrace_t
  packet : List libtrace_packet_t
  mem : frame_mem
  stream : xsk_per_stream
  calls : List xsk_call

/-- The step "free previously used frames" of `linux_xdp_read_stream`;
`none` if `stream->umem` or `stream->xsk` is `NULL` when dereferenced. -/
def recycle_prev (stream : xsk_per_stream) : Option (List xsk_call) :=
  if stream.prev_rcvd ≠ 0 then
    match stream.umem, stream.xsk with
    | some _, some _ => some [.fq_submit stream.prev_rcvd, .rx_release stream.prev_rcvd]
    | _, _ => none
  else some []

/-- Embedding of `linux_xdp_read_stream`. -/
def linux_xdp_read_stream (c : xsk_consts) (env : rx_env) (libtrace : libtrace_t)
    (packet : List libtrace_packet_t) (mem : frame_mem) (stream : xsk_per_stream)
    (nb_packets : Nat) : Option read_out :=
  match libtrace.format_data with
  | none =>
    some { ret := -1, via := .bad_format,
           libtrace := trace_set_err libtrace .TRACE_ERR_BAD_FORMAT
             "Trace format data missing, call trace_create() before calling trace_read_packet()",
           packet := packet, mem := mem, stream := stream, calls := [] }
  | some _ =>
    match recycle_prev stream with
    | none => none
    | some freed =>
      let nb_packets := if nb_packets > RX_BATCH_SIZE then RX_BATCH_SIZE else nb_packets
      match stream.xsk with
      | none => none
      | some xsk =>
        match rx_wait_loop nb_packets env.iters with
        | none => none
        | some (.halted ret, calls) =>
          some { ret := ret, via := .halted, libtrace := libtrace, packet := packet,
                 mem := mem, stream := stream, calls := freed ++ calls }
        | some (.poll_error errno, calls) =>
          some { ret := -1, via := .poll_error,
                 libtrace := trace_set_err libtrace (.errno errno) "poll error() XDP",
                 packet := packet, mem := mem, stream := stream, calls := freed ++ calls }
        | some (.rcvd rcvd idx_rx, calls) =>
          let d := deliver_loop c env xsk.umem.buffer rcvd
            { packet := packet, mem := mem, stream := stream, idx_rx := idx_rx }
          some { ret := c_int rcvd, via := .packets, libtrace := libtrace,
                 packet := d.packet, mem := d.mem,
                 stream := { d.stream with prev_rcvd := rcvd },
                 calls := freed ++ calls }

/-- Embedding of `linux_xdp_get_wire_length`: `PACKET_META->packet_len`
returned as `int`. -/
def linux_xdp_get_wire_length (mem : frame_mem) (packet : libtrace_packet_t) : Int :=
  c_int (PACKET_META mem packet).packet_len

/-- What `linux_xdp_read_stream` returns and leaves behind once its wait
loop has ended in the way `w`, having made the calls `calls`: the three
`some` branches of `linux_xdp_read_stream`, as one function of `w`. -/
def read_finish (c : xsk_consts) (env : rx_env) (libtrace : libtrace_t)
    (packet : List libtrace_packet_t) (mem : frame_mem) (stream : xsk_per_stream)
    (xsk : xsk_socket_info) (w : rx_wait) (calls : List xsk_call) : read_out :=
  match w with
  | .halted ret =>
    { ret := ret, via := .halted, libtrace := libtrace, packet := packet,
      mem := mem, stream := stream, calls := calls }
  | .poll_error errno =>
    { ret := -1, via := .poll_error,
      libtrace := trace_set_err libtrace (.errno errno) "poll error() XDP",
      packet := packet, mem := mem, stream := stream, calls := calls }
  | .rcvd rcvd idx_rx =>
    { ret := c_int rcvd, via := .packets, libtrace := libtrace,
      packet := (deliver_loop c env xsk.umem.buffer rcvd
        { packet := packet, mem := mem, stream := stream, idx_rx := idx_rx }).packet,
      mem := (deliver_loop c env xsk.umem.buffer rcvd
        { packet := packet, mem := mem, stream := stream, idx_rx := idx_rx }).mem,
      stream := { (deliver_loop c env xsk.umem.buffer rcvd
        { packet := packet, mem := mem, stream := stream, idx_rx := idx_rx }).stream with
        prev_rcvd := rcvd },
      calls := calls }

/-- Successive calls of `linux_xdp_read_stream` on one stream, each with its
own surroundings and requested count; the caller hands in the same packet
array every time.  The result lists the outcome of every call. -/
def read_stream_seq (c : xsk_consts) :
    List (rx_env × Nat) → libtrace_t → List libtrace_packet_t → frame_mem →
      xsk_per_stream → Option (List read_out)
  | [], _, _, _, _ => some []
  | (env, nb_packets) :: rest, libtrace, packet, mem, stream =>
    match linux_xdp_read_stream c env libtrace packet mem stream nb_packets with
    | none => none
    | some o =>
      match read_stream_seq c rest o.libtrace o.packet o.mem o.stream with
      | none => none
      | some os => some (o :: os)

/-- An answer record that ends the wait loop when `nb` entries are asked for:
a halt is reported, or entries are found, or `poll` fails. -/
def rx_iter.ends (nb : Nat) (it : rx_iter) : Prop :=
  it.halted ≠ -1 ∨ 1 ≤ (it.peek nb).1 % 4294967296 ∨ it.poll < 0

instance (nb : Nat) (it : rx_iter) : Decidable (rx_iter.ends nb it) := by
  unfold rx_iter.ends; infer_instance

/-- An answer record on which the wait loop goes round once more: no halt,
no entries, and `poll` returns without error. -/
def rx_iter.waits (nb : Nat) (it : rx_iter) : Prop :=
  it.halted = -1 ∧ (it.peek nb).1 % 4294967296 = 0 ∧ 0 ≤ it.poll

instance (nb : Nat) (it : rx_iter) : Decidable (rx_iter.waits nb it) := by
  unfold rx_iter.waits; infer_instance

/-- The calls made by `n` iterations of the wait loop that found nothing. -/
def wait_calls (nb : Nat) : Nat → List xsk_call
  | 0 => []
  | n + 1 => [.rx_peek nb, .is_halted, .poll 500] ++ wait_calls nb n

/-! ## Frame pool and socket set-up -/

/-- The loop `for (i = 0; i < XSK_RING_PROD__DEFAULT_NUM_DESCS; i++)` of
`xsk_populate_fill_ring` with `n` iterations still to run: each iteration
stores `i * FRAME_SIZE` (an `int` product, widened to 64 bits) at ring index
`idx` and increments the `uint32_t idx`. -/
def populate_loop (c : xsk_consts) : Nat → Nat → Nat → List xsk_call
  | 0, _, _ => []
  | n + 1, i, idx =>
    .fq_fill_addr idx (u64 (c_int ((i : Int) * (FRAME_SIZE c : Int)))) ::
      populate_loop c n (i + 1) ((idx + 1) % 4294967296)

/-- Embedding of `xsk_populate_fill_ring`; `reserve nb` is what
`xsk_ring_prod__reserve(&umem->fq, nb, &idx)` returns and stores in `idx`.
The function returns nothing; the result is the list of its calls. -/
def xsk_populate_fill_ring (c : xsk_consts) (reserve : Nat → Nat × Nat) : List xsk_call :=
  let ret := c_int ((reserve c.XSK_RING_PROD__DEFAULT_NUM_DESCS).1 : Int)
  let idx := (reserve c.XSK_RING_PROD__DEFAULT_NUM_DESCS).2 % 4294967296
  if ret ≠ (c.XSK_RING_PROD__DEFAULT_NUM_DESCS : Int) then
    [.fq_reserve c.XSK_RING_PROD__DEFAULT_NUM_DESCS,
     .stderr " error allocating xdp fill queue\n"]
  else
    [.fq_reserve c.XSK_RING_PROD__DEFAULT_NUM_DESCS] ++
      populate_loop c c.XSK_RING_PROD__DEFAULT_NUM_DESCS 0 idx ++
      [.fq_submit c.XSK_RING_PROD__DEFAULT_NUM_DESCS]

/-- What the surroundings answer while one stream is started. -/
structure stream_env where
  /-- The pointer returned by `mmap`. -/
  mmap : Int
  /-- Whether `calloc` for the `xsk_umem_info` succeeds. -/
  umem_calloc : Bool
  /-- The value of `xsk_umem__create`. -/
  xsk_umem__create : Int
  /-- The call `xsk_ring_prod__reserve` on the fill ring. -/
  fq_reserve : Nat → Nat × Nat
  /-- Whether `calloc` for the `xsk_socket_info` succeeds. -/
  xsk_calloc : Bool
  /-- The value of `xsk_socket__create`. -/
  xsk_socket__create : Int
  /-- The value of `bpf_get_link_xdp_id`. -/
  bpf_get_link_xdp_id : Int

/-- Embedding of `configure_xsk_umem`: the pool (`none` is `NULL`) and the
calls made on the fill ring. -/
def configure_xsk_umem (c : xsk_consts) (e : stream_env) (buffer : Int) (_size : Nat)
    (interface_queue : Int) : Option xsk_umem_info × List xsk_call :=
  if e.umem_calloc = false then (none, [])
  else if e.xsk_umem__create ≠ 0 then (none, [])
  else
    (some { buffer := buffer, xsk_if_queue := interface_queue },
      xsk_populate_fill_ring c e.fq_reserve)

/-- Embedding of `xsk_configure_socket` (`none` is `NULL`). -/
def xsk_configure_socket (e : stream_env) (_cfg : xsk_config) (umem : xsk_umem_info) :
    Option xsk_socket_info :=
  if e.xsk_calloc = false then none
  else if e.xsk_socket__create ≠ 0 then none
  else if e.bpf_get_link_xdp_id ≠ 0 then none
  else some { umem := umem }

/-- Result of a start function: the returned `int`, the trace, the stream
the function worked on, and the calls made on the fill ring. -/
structure start_out where
  ret : Int
  libtrace : libtrace_t
  stream : xsk_per_stream
  calls : List xsk_call
  deriving DecidableEq, Repr

/-- Embedding of `linux_xdp_start_stream`; `none` if the format data
pointer is `NULL` where `FORMAT_DATA->cfg` is used. -/
def linux_xdp_start_stream (c : xsk_consts) (e : stream_env) (libtrace : libtrace_t)
    (stream : xsk_per_stream) (ifqueue : Int) : Option start_out :=
  let pkt_buf_size := NUM_FRAMES * FRAME_SIZE c
  let pkt_buf := e.mmap
  let r := configure_xsk_umem c e pkt_buf pkt_buf_size ifqueue
  let stream := { stream with umem := r.1 }
  match r.1 with
  | none =>
    some { ret := -1,
           libtrace := trace_set_err libtrace .TRACE_ERR_INIT_FAILED
             "Unable to setup BPF umem in linux_xdp_start_stream()",
           stream := stream, calls := r.2 }
  | some umem =>
    match libtrace.format_data with
    | none => none
    | some fd =>
      let stream := { stream with xsk := xsk_configure_socket e fd.cfg umem }
      match stream.xsk with
      | none =>
        some { ret := -1,
               libtrace := trace_set_err libtrace .TRACE_ERR_INIT_FAILED
                 "Unable to configure AF_XDP socket interface:%s queue:%d  in linux_xdp_start_stream()",
               stream := stream, calls := r.2 }
      | some _ => some { ret := 0, libtrace := libtrace, stream := stream, calls := r.2 }

/-! ## Queue negotiation -/

inductive ethtool_cmd where
  | ETHTOOL_GCHANNELS
  | ETHTOOL_SCHANNELS
  deriving DecidableEq, Repr

/-- The record `struct ethtool_channels` (all counts are `__u32`). -/
structure ethtool_channels where
  cmd : ethtool_cmd
  max_rx : Nat
  max_tx : Nat
  max_other : Nat
  max_combined : Nat
  rx_count : Nat
  tx_count : Nat
  other_count : Nat
  combined_count : Nat
  deriving DecidableEq, Repr

/-- The Linux value of `EOPNOTSUPP`. -/
def EOPNOTSUPP : Int := 95

/-- What the surroundings answer to one call of
`linux_xdp_send_ioctl_ethtool`. -/
structure ioctl_env where
  /-- The value of `socket(AF_INET, SOCK_DGRAM, 0)`. -/
  socket : Int
  /-- The value of `errno` after `socket`. -/
  socket_errno : Int
  /-- The value of `ioctl(fd, SIOCETHTOOL, &ifr)`. -/
  ioctl : Int
  /-- The value of `errno` after `ioctl`. -/
  ioctl_errno : Int
  /-- What the driver leaves in the channels record. -/
  reply : ethtool_channels → ethtool_channels

/-- Embedding of `linux_xdp_send_ioctl_ethtool`: the returned `int` and the
channels record after the call. -/
def linux_xdp_send_ioctl_ethtool (e : ioctl_env) (channels : ethtool_channels)
    (_ifname : String) : Int × ethtool_channels :=
  if e.socket < 0 then (-e.socket_errno, channels)
  else
    let err := e.ioctl
    let channels := e.reply channels
    if err ≠ 0 ∧ e.ioctl_errno ≠ EOPNOTSUPP then (-e.ioctl_errno, channels)
    else if err ≠ 0 then (1, channels)
    else (0, channels)

/-- The answers to the up to three ethtool requests of
`linux_xdp_set_current_queues`, in the order in which they are sent. -/
structure queue_env where
  first : ioctl_env
  second : ioctl_env
  third : ioctl_env

/-- Embedding of `linux_xdp_set_current_queues`. -/
def linux_xdp_set_current_queues (e : queue_env) (ifname : String) (queues : Int) : Int :=
  let channels : ethtool_channels :=
    { cmd := .ETHTOOL_GCHANNELS, max_rx := 0, max_tx := 0, max_other := 0, max_combined := 0,
      rx_count := 0, tx_count := 0, other_count := 0, combined_count := 0 }
  let r1 := linux_xdp_send_ioctl_ethtool e.first channels ifname
  if r1.1 = 0 then
    let channels := r1.2
    let org_combined := channels.combined_count
    let channels := { channels with cmd := .ETHTOOL_SCHANNELS, combined_count := u32 queues }
    let r2 := linux_xdp_send_ioctl_ethtool e.second channels ifname
    if r2.1 = 0 then c_int r2.2.combined_count
    else
      let channels := r2.2
      let channels := { channels with rx_count := u32 queues, tx_count := u32 queues,
                                      combined_count := org_combined }
      let r3 := linux_xdp_send_ioctl_ethtool e.third channels ifname
      if r3.1 = 0 then c_int r3.2.rx_count
      else -1
  else -1

/-! ## Stream scheduler -/

/-- Modelled from the spec: `libtrace_list_push_back` of the libtrace list
module, which is not in the source file: the stream list gains a copy of
the item at its end. -/
def libtrace_list_push_back (list : List xsk_per_stream) (item : xsk_per_stream) :
    List xsk_per_stream :=
  list ++ [item]

/-- Modelled from the spec: `libtrace_list_get_index` of the libtrace list
module, which is not in the source file: the node at the index, `none`
(`NULL`) if the list is shorter.  A pointer to a node's data is its index. -/
def libtrace_list_get_index (list : List xsk_per_stream) (index : Nat) : Option Nat :=
  if index < list.length then some index else none

/-- What the surroundings answer during `linux_xdp_pstart_input`: the queue
negotiation and the start of stream `i`. -/
structure pstart_env where
  queues : queue_env
  streams : Nat → stream_env

/-- The loop `for (i = 0; i < threads; i++)` of `linux_xdp_pstart_input`
with `n` iterations still to run; the return value of
`linux_xdp_start_stream` is not used. -/
def pstart_loop (c : xsk_consts) (e : pstart_env) :
    Nat → Nat → libtrace_t → Option (libtrace_t × List xsk_call)
  | 0, _, libtrace => some (libtrace, [])
  | n + 1, i, libtrace =>
    match libtrace.format_data with
    | none => none
    | some fd =>
      let per_stream := libtrace_list_push_back fd.per_stream empty_stream
      match libtrace_list_get_index per_stream i with
      | none => none
      | some node =>
        match linux_xdp_start_stream c (e.streams i)
            { libtrace with format_data := some { fd with per_stream := per_stream } }
            (per_stream.getD node empty_stream) (i : Int) with
        | none => none
        | some r =>
          match r.libtrace.format_data with
          | none => none
          | some fd2 =>
            (pstart_loop c e n (i + 1)
              { r.libtrace with
                format_data := some { fd2 with per_stream := fd2.per_stream.set node r.stream } }
              ).map (fun q => (q.1, r.calls ++ q.2))

/-- Result of `linux_xdp_pstart_input` and `linux_xdp_start_input`. -/
structure input_out where
  ret : Int
  libtrace : libtrace_t
  calls : List xsk_call
  deriving DecidableEq, Repr

/-- Embedding of `linux_xdp_pstart_input`. -/
def linux_xdp_pstart_input (c : xsk_consts) (e : pstart_env) (libtrace : libtrace_t) :
    Option input_out :=
  let threads := libtrace.perpkt_thread_count
  match libtrace.format_data with
  | none => none
  | some fd =>
    if linux_xdp_set_current_queues e.queues fd.cfg.ifname threads < 0 then
      some { ret := -1,
             libtrace := trace_set_err libtrace .TRACE_ERR_INIT_FAILED
               "Unable to set number of NIC queues to match the number of processing threads, try reduce the number of threads",
             calls := [] }
    else
      (pstart_loop c e threads.toNat 0 libtrace).map
        (fun q => { ret := 0, libtrace := q.1, calls := q.2 })

/-- Embedding of `linux_xdp_start_input`. -/
def linux_xdp_start_input (c : xsk_consts) (e : stream_env) (libtrace : libtrace_t) :
    Option input_out :=
  match libtrace.format_data with
  | none => none
  | some fd =>
    let per_stream := libtrace_list_push_back fd.per_stream empty_stream
    match libtrace_list_get_index per_stream 0 with
    | none => none
    | some node =>
      match linux_xdp_start_stream c e
          { libtrace with format_data := some { fd with per_stream := per_stream } }
          (per_stream.getD node empty_stream) 0 with
      | none => none
      | some r =>
        match r.libtrace.format_data with
        | none => none
        | some fd2 =>
          some { ret := r.ret,
                 libtrace := { r.libtrace with
                   format_data := some { fd2 with
                     per_stream := fd2.per_stream.set node r.stream } },
                 calls := r.calls }

/-- The number of entries the code takes the peek of round `it` to have
found when `nb_packets` were requested (the value of `rcvd`). -/
def peeked_count (nb_packets : Nat) (it : rx_iter) : Nat :=
  (it.peek (min nb_packets RX_BATCH_SIZE)).1 % 4294967296

/-- The ring index the peek of round `it` stored in `idx_rx`. -/
def peeked_idx (nb_packets : Nat) (it : rx_iter) : Nat :=
  (it.peek (min nb_packets RX_BATCH_SIZE)).2 % 4294967296

/-- The RX descriptor at ring index `idx_rx + i` (32-bit index arithmetic). -/
def peeked_desc (env : rx_env) (nb_packets : Nat) (it : rx_iter) (i : Nat) : xdp_desc :=
  env.rx_desc ((peeked_idx nb_packets it + i) % 4294967296)

/-! ### Example surroundings -/

/-- A started stream on queue 0 with its frame region at address 1000000. -/
def stream0 : xsk_per_stream :=
  { umem := some { xsk_if_queue := 0, buffer := 1000000 }
    xsk := some { umem := { xsk_if_queue := 0, buffer := 1000000 } }
    prev_rcvd := 0
    prev_sys_time := 0 }

/-- A trace handle with format data for device `eth0`. -/
def trace0 : libtrace_t :=
  { format_data := some { cfg := { xdp_flags := 0, ifindex := 2, ifname := "eth0",
                                   xsk_bind_flags := 0 },
                          per_stream := [stream0] }
    perpkt_thread_count := 1
    uridata := "eth0"
    err := { err_num := .TRACE_ERR_NOERROR, problem := "" } }

/-- A packet object as the framework hands it in, not yet filled. -/
def blank_packet : libtrace_packet_t :=
  { buf_control := .TRACE_CTRL_PACKET, type := .other 0, buffer := 0, header := 0,
    payload := 0, error := 0 }

/-- Frame memory holding zeroes. -/
def zero_mem : frame_mem := fun _ => 0

/-- An RX ring whose descriptor at index `i` is frame `i` (frame size 4096,
256 bytes of kernel headroom, 12 bytes of metadata headroom) and has length
`128 + i`. -/
def ring0 : Nat → xdp_desc := fun i => { addr := i * 4096 + 268, len := 128 + i }

/-- An RX ring whose descriptors lie four bytes apart, so that their
metadata records overlap: descriptor `i` has address `268 + 4 * i` and
length `128 + i`. -/
def ring_overlap : Nat → xdp_desc := fun i => { addr := 268 + 4 * i, len := 128 + i }

/-- A clock that stands still at 1700000000 s. -/
def clock0 : Nat → timespec := fun _ => { tv_sec := 1700000000, tv_nsec := 0 }

/-- The peek finds `n` entries (at most the number asked for) at index `idx`. -/
def found (n idx : Nat) : rx_iter :=
  { peek := fun nb => (min n nb, idx), halted := -1, poll := 0, errno := 0 }

/-- The peek finds nothing and `poll` fails with `errno`. -/
def poll_fails (errno : Int) : rx_iter :=
  { peek := fun _ => (0, 0), halted := -1, poll := -1, errno := errno }

/-- The peek finds `n` entries at index `idx` and the trace is halted, the
halt query answering `ret`. -/
def found_halted (n idx : Nat) (ret : Int) : rx_iter :=
  { peek := fun nb => (min n nb, idx), halted := ret, poll := 0, errno := 0 }

/-- The reservation of the fill ring succeeds: all entries asked for are
granted, starting at ring index `idx`. -/
def reserve_all (idx : Nat) : Nat → Nat × Nat := fun nb => (nb, idx)

/-- The reservation of the fill ring fails: no entry is granted. -/
def reserve_none : Nat → Nat × Nat := fun _ => (0, 0)

/-- Every step of starting a stream succeeds; the frame region is mapped at
`1000000 * (i + 1)`. -/
def stream_ok (i : Nat) : stream_env :=
  { mmap := 1000000 * (i + 1), umem_calloc := true, xsk_umem__create := 0,
    fq_reserve := reserve_all 0, xsk_calloc := true, xsk_socket__create := 0,
    bpf_get_link_xdp_id := 0 }

/-- Starting a stream fails in pool set-up: `xsk_umem__create` returns
`-EINVAL`. -/
def umem_fails : stream_env := { stream_ok 0 with xsk_umem__create := -22 }

/-- Starting a stream fails in socket binding: `xsk_socket__create` returns
`-EBUSY`. -/
def socket_fails : stream_env := { stream_ok 1 with xsk_socket__create := -16 }

/-- An ethtool request the driver accepts, leaving the record as sent. -/
def ioctl_ok : ioctl_env :=
  { socket := 3, socket_errno := 0, ioctl := 0, ioctl_errno := 0, reply := id }

/-- A device that accepts the combined queue count at once. -/
def queues_ok : queue_env := { first := ioctl_ok, second := ioctl_ok, third := ioctl_ok }

/-- A trace handle for device `eth0` with an empty stream list and the given
number of per-packet threads. -/
def trace_init (threads : Int) : libtrace_t :=
  { format_data := some { cfg := { xdp_flags := 0, ifindex := 2, ifname := "eth0",
                                   xsk_bind_flags := 0 },
                          per_stream := [] }
    perpkt_thread_count := threads
    uridata := "eth0"
    err := { err_num := .TRACE_ERR_NOERROR, problem := "" } }

/-! ## Queue negotiation: the three requests -/

/-- The first request of `linux_xdp_set_current_queues`: the query
`ETHTOOL_GCHANNELS` on a zeroed record; the result is the value of
`linux_xdp_send_ioctl_ethtool` and the record after the call. -/
def queues_query (e : queue_env) (ifname : String) : Int × ethtool_channels :=
  linux_xdp_send_ioctl_ethtool e.first
    { cmd := .ETHTOOL_GCHANNELS, max_rx := 0, max_tx := 0, max_other := 0, max_combined := 0,
      rx_count := 0, tx_count := 0, other_count := 0, combined_count := 0 } ifname

/-- The record of the second request: the queried record with the command
`ETHTOOL_SCHANNELS` and `combined_count = queues`. -/
def combined_request (e : queue_env) (ifname : String) (queues : Int) : ethtool_channels :=
  { (queues_query e ifname).2 with cmd := .ETHTOOL_SCHANNELS, combined_count := u32 queues }

/-- The second request as answered. -/
def combined_reply (e : queue_env) (ifname : String) (queues : Int) : Int × ethtool_channels :=
  linux_xdp_send_ioctl_ethtool e.second (combined_request e ifname queues) ifname

/-- The record of the third request: the record left by the second with
`rx_count = tx_count = queues` and `combined_count = org_combined`. -/
def rxtx_request (e : queue_env) (ifname : String) (queues : Int) : ethtool_channels :=
  { (combined_reply e ifname queues).2 with
    rx_count := u32 queues, tx_count := u32 queues,
    combined_count := (queues_query e ifname).2.combined_count }

/-- The third request as answered. -/
def rxtx_reply (e : queue_env) (ifname : String) (queues : Int) : Int × ethtool_channels :=
  linux_xdp_send_ioctl_ethtool e.third (rxtx_request e ifname queues) ifname

/-- The query succeeds and reports `n` combined queues. -/
def ioctl_reports (n : Nat) : ioctl_env :=
  { socket := 3, socket_errno := 0, ioctl := 0, ioctl_errno := 0,
    reply := fun ch => { ch with max_combined := 64, combined_count := n } }

/-- The driver rejects the request with `EINVAL`, leaving the record as sent. -/
def ioctl_rejected : ioctl_env :=
  { socket := 3, socket_errno := 0, ioctl := -1, ioctl_errno := 22, reply := id }

/-- A device with 8 combined queues that rejects a combined count but
accepts separate RX and TX counts. -/
def queues_rxtx_only : queue_env :=
  { first := ioctl_reports 8, second := ioctl_rejected, third := ioctl_ok }

/-- A device that rejects every change of its queue counts. -/
def queues_fixed : queue_env :=
  { first := ioctl_reports 8, second := ioctl_rejected, third := ioctl_rejected }

/-! ## Initialisation: the device name -/

/-- The terminating character of a C string. -/
def NUL : Char := Char.ofNat 0

/-- The bytes a text occupies in a `char` array: its UTF-8 encoding.  A
Lean string stands for the array that holds these bytes; `NUL` is the one
byte 0 and `:` the one byte 58, and neither byte occurs inside the encoding
of another character (`utf8_takeWhile`, `utf8_strchr`), so that the
functions on texts below compute what the C functions compute on the bytes
(`init_input_refines`); `cfg_ifname_bytes` is the same computation for
every content of the memory, text or not. -/
def utf8 (l : List Char) : List UInt8 := l.flatMap String.utf8EncodeChar

/-- The C string held in a character array: the text before the first
`NUL`. -/
def c_str (s : String) : List Char := s.toList.takeWhile (fun ch => ch ≠ NUL)

/-- The C library function `strlen`: the number of bytes of a C string. -/
def strlen (l : List Char) : Nat := (utf8 l).length

/-- The C library function `strchr(s, c)` for `c` other than `NUL`: the rest
of the string from the first occurrence of `c` on, `none` (`NULL`) if `c`
does not occur. -/
def strchr : List Char → Char → Option (List Char)
  | [], _ => none
  | x :: xs, c => if x = c then some (x :: xs) else strchr xs c

/-- The call `memcpy(dst, src, strlen(src))` where `dst` is the start of an
array of `size` bytes that holds only `NUL`: the array afterwards, given as
the text whose bytes it holds (the copied string, then the `NUL` bytes that
are left); `none` if the `strlen(src)` bytes do not fit into the array. -/
def memcpy_into (size : Nat) (src : List Char) : Option (List Char) :=
  if strlen src ≤ size then some (src ++ List.replicate (size - strlen src) NUL) else none

/-- Reading a character array as a C string: the text before the first
`NUL`, `none` if the array holds no `NUL`. -/
def read_c_string (buf : List Char) : Option (List Char) :=
  if NUL ∈ buf then some (buf.takeWhile (fun ch => ch ≠ NUL)) else none

/-- The function `strchr` on the bytes of a C string. -/
def strchr_bytes : List UInt8 → UInt8 → Option (List UInt8)
  | [], _ => none
  | x :: xs, c => if x = c then some (x :: xs) else strchr_bytes xs c

/-- The call `memcpy(dst, src, strlen(src))` on bytes: `dst` is the start of
an array of `size` bytes that are all 0; `none` if the bytes do not fit. -/
def memcpy_bytes (size : Nat) (src : List UInt8) : Option (List UInt8) :=
  if src.length ≤ size then some (src ++ List.replicate (size - src.length) 0) else none

/-- Reading a byte array as a C string: the bytes before the first 0,
`none` if the array holds no 0. -/
def read_c_bytes (buf : List UInt8) : Option (List UInt8) :=
  if (0 : UInt8) ∈ buf then some (buf.takeWhile (fun b => b ≠ 0)) else none

/-- The device name of `linux_xdp_init_input` computed on bytes: `uridata`
is the memory at `libtrace->uridata`, the result the C string in
`cfg.ifname` after the `memcpy`. -/
def cfg_ifname_bytes (IF_NAMESIZE : Nat) (uridata : List UInt8) : Option (List UInt8) :=
  let s := uridata.takeWhile (fun b => b ≠ 0)
  let copied :=
    match strchr_bytes s 58 with
    | none => memcpy_bytes IF_NAMESIZE s
    | some sc => memcpy_bytes IF_NAMESIZE sc.tail
  copied.bind read_c_bytes

/-- Modelled from the spec: `libtrace_list_init` of the libtrace list
module, which is not in the source file: a new, empty stream list. -/
def libtrace_list_init : List xsk_per_stream := []

/-- What the surroundings answer during `linux_xdp_init_input`. -/
structure init_env where
  /-- The value of `setrlimit(RLIMIT_MEMLOCK, &r)`. -/
  setrlimit : Int
  /-- Whether `calloc` for the format data succeeds. -/
  calloc : Bool
  /-- The value of `if_nametoindex`, an `unsigned int`. -/
  if_nametoindex : String → Nat
  /-- Whether `libtrace_list_init` returns a list. -/
  list_init : Bool

/-- Embedding of `linux_xdp_init_input`; `IF_NAMESIZE` is the size of the
array `cfg.ifname` in bytes (a constant of `net/if.h`), which `calloc` has
filled with `NUL`.  The result is the returned `int` and the trace; `none`
if `memcpy` writes past the end of `cfg.ifname` or the array is read as a
string without holding a `NUL`.  A stream list that could not be created
is left empty. -/
def linux_xdp_init_input (IF_NAMESIZE : Nat) (e : init_env) (libtrace : libtrace_t) :
    Option (Int × libtrace_t) :=
  if e.setrlimit ≠ 0 then
    some (-1, trace_set_err libtrace .TRACE_ERR_INIT_FAILED
      "Unable to setrlimit(RLIMIT_MEMLOCK) in linux_xdp_init_input")
  else if e.calloc = false then
    some (-1, trace_set_err { libtrace with format_data := none } .TRACE_ERR_INIT_FAILED
      "Unable to allocate memory for format data in linux_xdp_init_input()")
  else
    let uridata := c_str libtrace.uridata
    let scan := strchr uridata ':'
    let copied :=
      match scan with
      | none => memcpy_into IF_NAMESIZE uridata
      | some sc => memcpy_into IF_NAMESIZE sc.tail
    match copied with
    | none => none
    | some buf =>
      match read_c_string buf with
      | none => none
      | some name =>
        let ifname := String.mk name
        let ifindex := c_int (e.if_nametoindex ifname : Int)
        let cfg : xsk_config :=
          { xdp_flags := 0, ifindex := ifindex, ifname := ifname, xsk_bind_flags := 0 }
        let libtrace :=
          { libtrace with format_data := (some { cfg := cfg, per_stream := [] }) }
        if ifindex = -1 then
          some (-1, trace_set_err libtrace .TRACE_ERR_INIT_FAILED "Invalid interface name.")
        else if e.list_init = false then
          some (-1, trace_set_err libtrace .TRACE_ERR_INIT_FAILED
            "Unable to create list for stream data in linux_xdp_init_input()")
        else
          some (0, { libtrace with
            format_data := (some { cfg := cfg, per_stream := libtrace_list_init }) })

/-- A trace handle as `linux_xdp_init_input` receives it: the URI data is
set, the format data is not. -/
def trace_new (uridata : String) : libtrace_t :=
  { format_data := none, perpkt_thread_count := 1, uridata := uridata,
    err := { err_num := .TRACE_ERR_NOERROR, problem := "" } }

/-- Every step of the initialisation succeeds; every interface has index 2. -/
def init_ok : init_env :=
  { setrlimit := 0, calloc := true, if_nametoindex := fun _ => 2, list_init := true }

/-! ## Packet framing: reading the timestamp back -/

/-- Conversion of an integer value to a 64-bit `long` (two's complement),
the type of `time_t` and `suseconds_t` on 64-bit Linux. -/
def c_long (x : Int) : Int :=
  if x % 18446744073709551616 < 9223372036854775808 then x % 18446744073709551616
  else x % 18446744073709551616 - 18446744073709551616

/-- Result of `linux_xdp_get_timeval`. -/
structure timeval where
  tv_sec : Int
  tv_usec : Int
  deriving DecidableEq, Repr

/-- Embedding of `linux_xdp_get_timeval`; `PACKET_META` is the metadata
stored at `packet->header`, the arithmetic is `uint64_t` arithmetic. -/
def linux_xdp_get_timeval (mem : frame_mem) (packet : libtrace_packet_t) : timeval :=
  { tv_sec := c_long (((PACKET_META mem packet).timestamp / 1000000000 : Nat) : Int)
    tv_usec := c_long ((((PACKET_META mem packet).timestamp % 1000000000) / 1000 : Nat) : Int) }

/-- Embedding of `linux_xdp_get_timespec`. -/
def linux_xdp_get_timespec (mem : frame_mem) (packet : libtrace_packet_t) : timespec :=
  { tv_sec := c_long (((PACKET_META mem packet).timestamp / 1000000000 : Nat) : Int)
    tv_nsec := c_long (((PACKET_META mem packet).timestamp % 1000000000 : Nat) : Int) }

/-- Frame memory holding one metadata record with the given timestamp at
address 0, where `blank_packet` has its header. -/
def mem_at (timestamp : Nat) : frame_mem :=
  store_meta zero_mem 0 timestamp 128

/-! ## Theorems -/

theorem sys_time_of_lt (ts : timespec) : sys_time_of ts < 18446744073709551616 := by
  unfold sys_time_of
  exact Nat.mod_lt _ (by norm_num)

theorem get_time_prev (stream : xsk_per_stream) (ts : timespec) :
    (linux_xdp_get_time stream ts).2.prev_sys_time = (linux_xdp_get_time stream ts).1 := by
  simp [linux_xdp_get_time]

theorem get_time_gt (stream : xsk_per_stream) (ts : timespec)
    (h : stream.prev_sys_time < 18446744073709551615) :
    stream.prev_sys_time < (linux_xdp_get_time stream ts).1 := by
  simp only [linux_xdp_get_time]
  split
  · rw [Nat.mod_eq_of_lt (by omega)]
    omega
  · omega

theorem get_time_lt (stream : xsk_per_stream) (ts : timespec) :
    (linux_xdp_get_time stream ts).1 < 18446744073709551616 := by
  simp only [linux_xdp_get_time]
  split
  · exact Nat.mod_lt _ (by norm_num)
  · exact sys_time_of_lt ts

theorem get_time_seq_chain (samples : List timespec) :
    ∀ stream : xsk_per_stream,
      stream.prev_sys_time < 18446744073709551615 →
      (∀ t ∈ (get_time_seq stream samples).1.dropLast, t < 18446744073709551615) →
      List.Chain (· < ·) stream.prev_sys_time (get_time_seq stream samples).1 := by
  induction samples with
  | nil => intro stream _ _; exact List.Chain.nil
  | cons ts rest ih =>
    intro stream h0 hs
    simp only [get_time_seq] at hs ⊢
    refine List.Chain.cons (get_time_gt stream ts h0) ?_
    cases rest with
    | nil => exact List.Chain.nil
    | cons ts2 rest2 =>
      have hprev := get_time_prev stream ts
      simp only [get_time_seq, List.dropLast_cons₂] at hs
      have h1 : (linux_xdp_get_time stream ts).1 < 18446744073709551615 :=
        hs _ (List.mem_cons_self _ _)
      have ih2 := ih (linux_xdp_get_time stream ts).2 (by rw [hprev]; exact h1)
        (by
          intro t ht
          simp only [get_time_seq] at ht
          exact hs t (List.mem_cons_of_mem _ ht))
      rw [hprev] at ih2
      exact ih2

/-- C1 (as amended): for every stream whose previous timestamp is below the
largest 64-bit value and every clock sample, `linux_xdp_get_time` returns a
value strictly greater than `prev_sys_time` and stores it as the new
`prev_sys_time`; hence for every sequence of clock samples (non-increasing
ones included) the returned timestamps, preceded by the initial
`prev_sys_time`, are strictly increasing as long as no timestamp that is
fed back as `prev_sys_time` is the largest 64-bit value. -/
theorem C1_timestamps_strictly_increasing (stream : xsk_per_stream) (ts : timespec)
    (samples : List timespec)
    (h0 : stream.prev_sys_time < 18446744073709551615)
    (hs : ∀ t ∈ (get_time_seq stream samples).1.dropLast, t < 18446744073709551615) :
    stream.prev_sys_time < (linux_xdp_get_time stream ts).1 ∧
    (linux_xdp_get_time stream ts).2.prev_sys_time = (linux_xdp_get_time stream ts).1 ∧
    List.Sorted (· < ·) (stream.prev_sys_time :: (get_time_seq stream samples).1) :=
  ⟨get_time_gt stream ts h0, get_time_prev stream ts,
    List.chain_iff_pairwise.mp (get_time_seq_chain samples stream h0 hs)⟩

/-- C1 witness: a stream at timestamp 5 and the clock samples 3, 3, 2 ns. -/
theorem C1_timestamps_strictly_increasing_witness :
    ({ empty_stream with prev_sys_time := 5 } : xsk_per_stream).prev_sys_time
        < 18446744073709551615 ∧
    (get_time_seq { empty_stream with prev_sys_time := 5 }
        [⟨0, 3⟩, ⟨0, 3⟩, ⟨0, 2⟩]).1 = [6, 7, 8] ∧
    List.Sorted (· < ·) (({ empty_stream with prev_sys_time := 5 } : xsk_per_stream).prev_sys_time ::
      (get_time_seq { empty_stream with prev_sys_time := 5 } [⟨0, 3⟩, ⟨0, 3⟩, ⟨0, 2⟩]).1) :=
  ⟨by decide, by decide,
    (C1_timestamps_strictly_increasing { empty_stream with prev_sys_time := 5 } ⟨0, 3⟩
      [⟨0, 3⟩, ⟨0, 3⟩, ⟨0, 2⟩] (by decide) (by decide)).2.2⟩

/-- C1 counterexample: the claim as stated (any 64-bit `prev_sys_time`) fails
at `prev_sys_time = 2^64 - 1`, where the increment wraps to 0. -/
theorem C1_counterexample :
    (linux_xdp_get_time { empty_stream with prev_sys_time := 18446744073709551615 }
        ⟨1700000000, 0⟩).1 = 0 ∧
    ¬ ∀ (stream : xsk_per_stream) (ts : timespec),
        stream.prev_sys_time < 18446744073709551616 →
        stream.prev_sys_time < (linux_xdp_get_time stream ts).1 := by
  refine ⟨by decide, fun h => ?_⟩
  have h1 := h { empty_stream with prev_sys_time := 18446744073709551615 } ⟨1700000000, 0⟩
    (by decide)
  revert h1
  decide

/-! ### The receive loop -/

theorem clamp_eq_min (nb : Nat) :
    (if nb > RX_BATCH_SIZE then RX_BATCH_SIZE else nb) = min nb RX_BATCH_SIZE := by
  unfold RX_BATCH_SIZE
  split <;> omega

theorem rx_wait_loop_peeks (nb : Nat) (iters : List rx_iter) :
    ∀ (r : rx_wait) (calls : List xsk_call), rx_wait_loop nb iters = some (r, calls) →
      ∀ n, xsk_call.rx_peek n ∈ calls → n = nb := by
  induction iters with
  | nil => intro r calls h; simp [rx_wait_loop] at h
  | cons it rest ih =>
    intro r calls h n hn
    simp only [rx_wait_loop] at h
    split at h
    · cases h; simpa using hn
    · split at h
      · split at h
        · cases h; simpa using hn
        · cases hrest : rx_wait_loop nb rest with
          | none => simp [hrest] at h
          | some q =>
            obtain ⟨r2, calls2⟩ := q
            simp only [hrest, Option.map_some', Option.some.injEq, Prod.mk.injEq] at h
            obtain ⟨_, hc⟩ := h
            subst hc
            simp only [List.cons_append, List.nil_append, List.mem_cons, xsk_call.rx_peek.injEq,
              reduceCtorEq, false_or] at hn
            rcases hn with hn | hn
            · exact hn
            · exact ih r2 calls2 hrest n hn
      · cases h; simpa using hn

theorem rx_wait_loop_rcvd (nb : Nat) (iters : List rx_iter) :
    ∀ (k idx : Nat) (calls : List xsk_call),
      rx_wait_loop nb iters = some (.rcvd k idx, calls) →
      1 ≤ k ∧ ∃ it ∈ iters, k = (it.peek nb).1 % 4294967296 := by
  induction iters with
  | nil => intro k idx calls h; simp [rx_wait_loop] at h
  | cons it rest ih =>
    intro k idx calls h
    simp only [rx_wait_loop] at h
    split at h
    · simp at h
    · split at h
      · split at h
        · simp at h
        · cases hrest : rx_wait_loop nb rest with
          | none => simp [hrest] at h
          | some q =>
            obtain ⟨r2, calls2⟩ := q
            simp only [hrest, Option.map_some', Option.some.injEq, Prod.mk.injEq] at h
            obtain ⟨hr, _⟩ := h
            subst hr
            obtain ⟨h1, it2, hit2, hk⟩ := ih k idx calls2 hrest
            exact ⟨h1, it2, List.mem_cons_of_mem _ hit2, hk⟩
      · rename_i hlt
        simp only [Option.some.injEq, Prod.mk.injEq, rx_wait.rcvd.injEq] at h
        obtain ⟨⟨hk, _⟩, _⟩ := h
        subst hk
        exact ⟨by omega, it, List.mem_cons_self _ _, rfl⟩

theorem rx_wait_loop_isSome (nb : Nat) (iters : List rx_iter)
    (h : ∃ it ∈ iters, rx_iter.ends nb it) : (rx_wait_loop nb iters).isSome = true := by
  induction iters with
  | nil => simp at h
  | cons it rest ih =>
    simp only [rx_wait_loop]
    split
    · rfl
    · rename_i hh
      split
      · rename_i hz
        split
        · rfl
        · rename_i hp
          obtain ⟨it2, hit2, he⟩ := h
          rcases List.mem_cons.mp hit2 with heq | hmem
          · subst heq
            unfold rx_iter.ends at he
            rcases he with he | he | he
            · exact absurd he hh
            · omega
            · exact absurd he hp
          · have := ih ⟨it2, hmem, he⟩
            cases hrest : rx_wait_loop nb rest with
            | none => simp [hrest] at this
            | some q => simp
      · rfl

theorem rx_wait_loop_waits (nb : Nat) (pre rest : List rx_iter)
    (h : ∀ it ∈ pre, rx_iter.waits nb it) :
    rx_wait_loop nb (pre ++ rest) =
      (rx_wait_loop nb rest).map (fun r => (r.1, wait_calls nb pre.length ++ r.2)) := by
  induction pre with
  | nil =>
    cases hrest : rx_wait_loop nb rest with
    | none => simp [hrest]
    | some q => simp [hrest, wait_calls]
  | cons it pre ih =>
    have hw := h it (List.mem_cons_self _ _)
    unfold rx_iter.waits at hw
    obtain ⟨h1, h2, h3⟩ := hw
    have ih2 := ih (fun x hx => h x (List.mem_cons_of_mem _ hx))
    have step : rx_wait_loop nb (it :: (pre ++ rest)) =
        (rx_wait_loop nb (pre ++ rest)).map
          (fun r => (r.1, [.rx_peek nb, .is_halted, .poll 500] ++ r.2)) := by
      simp [rx_wait_loop, h1, h2, not_lt.mpr h3]
    rw [List.cons_append, step, ih2]
    cases hrest : rx_wait_loop nb rest with
    | none => simp
    | some q => simp [wait_calls]

theorem recycle_prev_some (stream : xsk_per_stream) (freed : List xsk_call)
    (h : recycle_prev stream = some freed) :
    freed = if stream.prev_rcvd ≠ 0 then
        [.fq_submit stream.prev_rcvd, .rx_release stream.prev_rcvd] else [] := by
  unfold recycle_prev at h
  split at h
  · rename_i hp
    rw [if_pos hp]
    split at h
    · cases h; rfl
    · cases h
  · rename_i hp
    rw [if_neg hp]
    cases h; rfl

theorem recycle_prev_started (stream : xsk_per_stream) (u : xsk_umem_info)
    (x : xsk_socket_info) (hu : stream.umem = some u) (hx : stream.xsk = some x) :
    recycle_prev stream = some (if stream.prev_rcvd ≠ 0 then
        [.fq_submit stream.prev_rcvd, .rx_release stream.prev_rcvd] else []) := by
  unfold recycle_prev
  rw [hu, hx]
  split <;> rfl

theorem read_stream_eq (c : xsk_consts) (env : rx_env) (libtrace : libtrace_t)
    (packet : List libtrace_packet_t) (mem : frame_mem) (stream : xsk_per_stream)
    (nb_packets : Nat) (fd : xdp_format_data_t) (freed : List xsk_call)
    (xsk : xsk_socket_info) (hfd : libtrace.format_data = some fd)
    (hr : recycle_prev stream = some freed) (hx : stream.xsk = some xsk) :
    linux_xdp_read_stream c env libtrace packet mem stream nb_packets =
      (rx_wait_loop (min nb_packets RX_BATCH_SIZE) env.iters).map
        (fun r => read_finish c env libtrace packet mem stream xsk r.1 (freed ++ r.2)) := by
  simp only [linux_xdp_read_stream, hfd, hr, hx, clamp_eq_min]
  cases hw : rx_wait_loop (min nb_packets RX_BATCH_SIZE) env.iters with
  | none => rfl
  | some q =>
    obtain ⟨w, calls⟩ := q
    cases w <;> rfl

theorem read_stream_inv (c : xsk_consts) (env : rx_env) (libtrace : libtrace_t)
    (packet : List libtrace_packet_t) (mem : frame_mem) (stream : xsk_per_stream)
    (nb_packets : Nat) (out : read_out)
    (h : linux_xdp_read_stream c env libtrace packet mem stream nb_packets = some out) :
    (libtrace.format_data = none ∧ out.via = .bad_format ∧ out.ret = -1 ∧ out.calls = [] ∧
      out.stream = stream ∧ out.packet = packet ∧ out.mem = mem) ∨
    (∃ fd freed xsk w calls, libtrace.format_data = some fd ∧
      recycle_prev stream = some freed ∧ stream.xsk = some xsk ∧
      rx_wait_loop (min nb_packets RX_BATCH_SIZE) env.iters = some (w, calls) ∧
      out = read_finish c env libtrace packet mem stream xsk w (freed ++ calls)) := by
  cases hfd : libtrace.format_data with
  | none =>
    left
    simp only [linux_xdp_read_stream, hfd, Option.some.injEq] at h
    subst h
    simp
  | some fd =>
    right
    cases hr : recycle_prev stream with
    | none => simp [linux_xdp_read_stream, hfd, hr] at h
    | some freed =>
      cases hx : stream.xsk with
      | none => simp [linux_xdp_read_stream, hfd, hr, hx] at h
      | some xsk =>
        rw [read_stream_eq c env libtrace packet mem stream nb_packets fd freed xsk hfd hr hx] at h
        cases hw : rx_wait_loop (min nb_packets RX_BATCH_SIZE) env.iters with
        | none => simp [hw] at h
        | some q =>
          obtain ⟨w, calls⟩ := q
          simp only [hw, Option.map_some', Option.some.injEq] at h
          exact ⟨fd, freed, xsk, w, calls, rfl, rfl, rfl, rfl, h.symm⟩

theorem c_int_of_lt (n : Nat) (h : n < 2147483648) : c_int (n : Int) = (n : Int) := by
  unfold c_int
  split <;> omega

theorem read_finish_calls (c : xsk_consts) (env : rx_env) (libtrace : libtrace_t)
    (packet : List libtrace_packet_t) (mem : frame_mem) (stream : xsk_per_stream)
    (xsk : xsk_socket_info) (w : rx_wait) (calls : List xsk_call) :
    (read_finish c env libtrace packet mem stream xsk w calls).calls = calls := by
  cases w <;> rfl

/-- Every call of `linux_xdp_read_stream` that gets past the format data
check starts by submitting and releasing exactly `prev_rcvd` frames (nothing
if `prev_rcvd` is 0), and makes no other submit or release. -/
theorem read_stream_recycles (c : xsk_consts) (env : rx_env) (libtrace : libtrace_t)
    (packet : List libtrace_packet_t) (mem : frame_mem) (stream : xsk_per_stream)
    (nb_packets : Nat) (out : read_out)
    (h : linux_xdp_read_stream c env libtrace packet mem stream nb_packets = some out)
    (hv : out.via ≠ .bad_format) :
    ∃ calls, out.calls = (if stream.prev_rcvd ≠ 0 then
        [.fq_submit stream.prev_rcvd, .rx_release stream.prev_rcvd] else []) ++ calls ∧
      ∀ n, xsk_call.fq_submit n ∉ calls ∧ xsk_call.rx_release n ∉ calls := by
  rcases read_stream_inv c env libtrace packet mem stream nb_packets out h with
    ⟨_, hb, _⟩ | ⟨fd, freed, xsk, w, calls, _, hr, _, hw, rfl⟩
  · exact absurd hb hv
  · refine ⟨calls, ?_, ?_⟩
    · rw [read_finish_calls, recycle_prev_some stream freed hr]
    · intro n
      have key : ∀ (iters : List rx_iter) (w : rx_wait) (calls : List xsk_call),
          rx_wait_loop (min nb_packets RX_BATCH_SIZE) iters = some (w, calls) →
          xsk_call.fq_submit n ∉ calls ∧ xsk_call.rx_release n ∉ calls := by
        intro iters
        induction iters with
        | nil => intro w calls h; simp [rx_wait_loop] at h
        | cons it rest ih =>
          intro w calls h
          simp only [rx_wait_loop] at h
          split at h
          · cases h; simp
          · split at h
            · split at h
              · cases h; simp
              · cases hrest : rx_wait_loop (min nb_packets RX_BATCH_SIZE) rest with
                | none => simp [hrest] at h
                | some q =>
                  obtain ⟨w2, calls2⟩ := q
                  simp only [hrest, Option.map_some', Option.some.injEq, Prod.mk.injEq] at h
                  obtain ⟨_, hc⟩ := h
                  subst hc
                  have := ih w2 calls2 hrest
                  simp [this.1, this.2]
            · cases h; simp
      exact key env.iters w calls hw

/-- The delivered count is recorded in `prev_rcvd` only by a call that
returns packets; a call that ends with a halt, a `poll` error or the format
data check leaves the stream record, and so `prev_rcvd`, as it was. -/
theorem read_stream_prev_rcvd (c : xsk_consts) (env : rx_env) (libtrace : libtrace_t)
    (packet : List libtrace_packet_t) (mem : frame_mem) (stream : xsk_per_stream)
    (nb_packets : Nat) (out : read_out)
    (h : linux_xdp_read_stream c env libtrace packet mem stream nb_packets = some out) :
    (out.via = .packets → out.ret = c_int out.stream.prev_rcvd) ∧
    (out.via ≠ .packets → out.stream = stream ∧ out.packet = packet ∧ out.mem = mem) := by
  rcases read_stream_inv c env libtrace packet mem stream nb_packets out h with
    ⟨_, hb, _, _, hs, hp, hm⟩ | ⟨fd, freed, xsk, w, calls, _, _, _, _, rfl⟩
  · refine ⟨fun hv => ?_, fun _ => ⟨hs, hp, hm⟩⟩
    rw [hb] at hv
    cases hv
  · cases w with
    | halted ret =>
      refine ⟨fun hv => ?_, fun _ => ⟨rfl, rfl, rfl⟩⟩
      cases hv
    | poll_error e =>
      refine ⟨fun hv => ?_, fun _ => ⟨rfl, rfl, rfl⟩⟩
      cases hv
    | rcvd k idx =>
      refine ⟨fun _ => ?_, fun hv => ?_⟩
      · simp only [read_finish]
      · simp only [read_finish, ne_eq, not_true_eq_false] at hv

/-! ### Frame memory -/

theorem write_le_outside (mem : frame_mem) (n : Nat) (a : Int) (v : Nat) (x : Int)
    (h : x < a ∨ a + n ≤ x) : write_le mem n a v x = mem x := by
  unfold write_le
  rw [if_neg]
  omega

theorem read_le_congr (m1 m2 : frame_mem) (n : Nat) :
    ∀ a : Int, (∀ x, a ≤ x → x < a + n → m1 x = m2 x) → read_le m1 n a = read_le m2 n a := by
  induction n with
  | zero => intro a _; rfl
  | succ n ih =>
    intro a hx
    simp only [read_le]
    rw [hx a (le_refl a) (by push_cast; omega), ih (a + 1) (fun x h1 h2 => hx x (by omega)
      (by push_cast; omega))]

/-- A value stored in `n` bytes is read back modulo `256 ^ n`. -/
theorem read_le_write_le (n : Nat) :
    ∀ (mem : frame_mem) (a : Int) (v : Nat),
      read_le (write_le mem n a v) n a = v % 256 ^ n := by
  induction n with
  | zero => intro mem a v; simp [read_le, Nat.mod_one]
  | succ n ih =>
    intro mem a v
    have h0 : write_le mem (n + 1) a v a = v % 256 := by
      unfold write_le
      rw [if_pos (by constructor <;> push_cast <;> omega)]
      simp
    have hrest : read_le (write_le mem (n + 1) a v) n (a + 1) =
        read_le (write_le mem n (a + 1) (v / 256)) n (a + 1) := by
      apply read_le_congr
      intro x h1 h2
      unfold write_le
      rw [if_pos (by constructor <;> push_cast <;> omega), if_pos ⟨h1, h2⟩]
      have hx : (x - a).toNat = (x - (a + 1)).toNat + 1 := by omega
      rw [hx, Nat.pow_succ, Nat.mul_comm, Nat.div_div_eq_div_mul]
    simp only [read_le]
    rw [h0, hrest, ih, Nat.mod_mod, Nat.pow_succ, Nat.mul_comm (256 ^ n) 256, Nat.mod_mul]

/-- The timestamp stored with a metadata record is read back from it. -/
theorem meta_at_store_timestamp (mem : frame_mem) (a : Int) (t len : Nat) :
    (meta_at (store_meta mem a t len) a).timestamp = t % 18446744073709551616 := by
  simp only [meta_at, store_meta]
  rw [read_le_congr _ (write_le mem 8 a t) 8 a (fun x h1 h2 =>
    write_le_outside _ 4 (a + 8) len x (by omega)), read_le_write_le 8]
  norm_num

theorem deliver_loop_idx (c : xsk_consts) (env : rx_env) (b : Int) (st : deliver_state)
    (h : st.idx_rx < 4294967296) (k : Nat) :
    (deliver_loop c env b k st).idx_rx = (st.idx_rx + k) % 4294967296 := by
  induction k with
  | zero => simp [deliver_loop, Nat.mod_eq_of_lt h]
  | succ k ih =>
    simp only [deliver_loop, deliver_packet, ih]
    omega

theorem deliver_loop_length (c : xsk_consts) (env : rx_env) (b : Int) (st : deliver_state)
    (k : Nat) : (deliver_loop c env b k st).packet.length = st.packet.length := by
  induction k with
  | zero => rfl
  | succ k ih => simp only [deliver_loop, deliver_packet, List.length_set, ih]

theorem deliver_loop_stream (c : xsk_consts) (env : rx_env) (b : Int) (st : deliver_state)
    (k : Nat) :
    (deliver_loop c env b k st).stream.umem = st.stream.umem ∧
    (deliver_loop c env b k st).stream.xsk = st.stream.xsk ∧
    (deliver_loop c env b k st).stream.prev_rcvd = st.stream.prev_rcvd := by
  induction k with
  | zero => exact ⟨rfl, rfl, rfl⟩
  | succ k ih =>
    simp only [deliver_loop, deliver_packet, linux_xdp_get_time]
    exact ih

/-- After the delivery loop, packet `i` of the batch is the record built
from the descriptor at ring index `idx_rx + i`. -/
theorem deliver_loop_packet (c : xsk_consts) (env : rx_env) (b : Int) (st : deliver_state)
    (h : st.idx_rx < 4294967296) (k : Nat) :
    ∀ i, i < k → i < st.packet.length →
      (deliver_loop c env b k st).packet[i]? = some
        { buf_control := .TRACE_CTRL_EXTERNAL
          type := .TRACE_RT_DATA_XDP
          buffer := b + (env.rx_desc ((st.idx_rx + i) % 4294967296)).addr - FRAME_HEADROOM c
          header := b + (env.rx_desc ((st.idx_rx + i) % 4294967296)).addr - FRAME_HEADROOM c
          payload := b + (env.rx_desc ((st.idx_rx + i) % 4294967296)).addr
          error := 1 } := by
  induction k with
  | zero => intro i hi; omega
  | succ k ih =>
    intro i hi hlen
    simp only [deliver_loop, deliver_packet]
    by_cases hik : i = k
    · subst hik
      rw [List.getElem?_set_self (by rw [deliver_loop_length]; exact hlen),
        deliver_loop_idx c env b st h]
      simp [xsk_umem__get_data]
    · rw [List.getElem?_set_ne (Ne.symm hik)]
      exact ih i (by omega) hlen

/-- On a started stream, if the wait loop finds nothing for some rounds and
then finds entries while no halt is reported, the call delivers them. -/
theorem read_stream_found (c : xsk_consts) (env : rx_env) (libtrace : libtrace_t)
    (packet : List libtrace_packet_t) (mem : frame_mem) (stream : xsk_per_stream)
    (nb_packets : Nat) (fd : xdp_format_data_t) (u : xsk_umem_info) (xsk : xsk_socket_info)
    (pre : List rx_iter) (it : rx_iter) (rest : List rx_iter)
    (hfd : libtrace.format_data = some fd) (hu : stream.umem = some u)
    (hx : stream.xsk = some xsk) (henv : env.iters = pre ++ it :: rest)
    (hpre : ∀ x ∈ pre, rx_iter.waits (min nb_packets RX_BATCH_SIZE) x)
    (hh : it.halted = -1) (hk : 1 ≤ peeked_count nb_packets it) :
    linux_xdp_read_stream c env libtrace packet mem stream nb_packets =
      some (read_finish c env libtrace packet mem stream xsk
        (.rcvd (peeked_count nb_packets it) (peeked_idx nb_packets it))
        ((if stream.prev_rcvd ≠ 0 then
            [.fq_submit stream.prev_rcvd, .rx_release stream.prev_rcvd] else []) ++
          (wait_calls (min nb_packets RX_BATCH_SIZE) pre.length ++
            [.rx_peek (min nb_packets RX_BATCH_SIZE), .is_halted]))) := by
  rw [read_stream_eq c env libtrace packet mem stream nb_packets fd _ xsk hfd
    (recycle_prev_started stream u xsk hu hx) hx, henv, rx_wait_loop_waits _ _ _ hpre]
  unfold peeked_count at hk
  have hk2 : ¬ (it.peek (min nb_packets RX_BATCH_SIZE)).1 % 4294967296 < 1 := by omega
  simp [rx_wait_loop, hh, hk2, peeked_count, peeked_idx]

/-- On a started stream, if the wait loop finds nothing for some rounds and
then a halt is reported, the call returns the halt answer, whatever the peek
of that round found. -/
theorem read_stream_halted (c : xsk_consts) (env : rx_env) (libtrace : libtrace_t)
    (packet : List libtrace_packet_t) (mem : frame_mem) (stream : xsk_per_stream)
    (nb_packets : Nat) (fd : xdp_format_data_t) (u : xsk_umem_info) (xsk : xsk_socket_info)
    (pre : List rx_iter) (it : rx_iter) (rest : List rx_iter)
    (hfd : libtrace.format_data = some fd) (hu : stream.umem = some u)
    (hx : stream.xsk = some xsk) (henv : env.iters = pre ++ it :: rest)
    (hpre : ∀ x ∈ pre, rx_iter.waits (min nb_packets RX_BATCH_SIZE) x)
    (hh : it.halted ≠ -1) :
    linux_xdp_read_stream c env libtrace packet mem stream nb_packets =
      some (read_finish c env libtrace packet mem stream xsk (.halted it.halted)
        ((if stream.prev_rcvd ≠ 0 then
            [.fq_submit stream.prev_rcvd, .rx_release stream.prev_rcvd] else []) ++
          (wait_calls (min nb_packets RX_BATCH_SIZE) pre.length ++
            [.rx_peek (min nb_packets RX_BATCH_SIZE), .is_halted]))) := by
  rw [read_stream_eq c env libtrace packet mem stream nb_packets fd _ xsk hfd
    (recycle_prev_started stream u xsk hu hx) hx, henv, rx_wait_loop_waits _ _ _ hpre]
  simp [rx_wait_loop, hh]

theorem wait_calls_mem (nb n : Nat) (x : xsk_call) (h : x ∈ wait_calls nb n) :
    x = .rx_peek nb ∨ x = .is_halted ∨ x = .poll 500 := by
  induction n with
  | zero => simp [wait_calls] at h
  | succ n ih =>
    simp only [wait_calls, List.cons_append, List.nil_append, List.mem_cons] at h
    rcases h with h | h | h | h
    · exact Or.inl h
    · exact Or.inr (Or.inl h)
    · exact Or.inr (Or.inr h)
    · exact ih h

/-- C2 (evaluation at the failing input): on a started stream the first call
returns 3 packets; the second call recycles those 3 frames and then ends
with a halted indication, the third ends with a `poll` error, neither
returning a packet; yet the third and the fourth call each submit 3 frames
to the fill ring and release 3 entries of the RX ring again, because
`prev_rcvd` is written only on the path that returns packets. -/
theorem C2_recycle_repeated_after_empty_call :
    ((read_stream_seq libbpf_consts
      [(⟨[found 3 0], ring0, clock0⟩, 64), (⟨[found_halted 0 3 (-2)], ring0, clock0⟩, 64),
       (⟨[poll_fails 4], ring0, clock0⟩, 64), (⟨[found 1 3], ring0, clock0⟩, 64)]
      trace0 (List.replicate 64 blank_packet) zero_mem stream0).map
      (fun os => os.map (fun o => (o.ret, o.via, o.stream.prev_rcvd, o.calls)))) =
    some [(3, .packets, 3, [.rx_peek 64, .is_halted]),
          (-2, .halted, 3, [.fq_submit 3, .rx_release 3, .rx_peek 64, .is_halted]),
          (-1, .poll_error, 3,
            [.fq_submit 3, .rx_release 3, .rx_peek 64, .is_halted, .poll 500]),
          (1, .packets, 1, [.fq_submit 3, .rx_release 3, .rx_peek 64, .is_halted])] := by
  decide

/-- C3: whatever count is requested, every peek of the RX ring asks for
exactly `min nb_packets 64` descriptors, and a call that returns a packet
count returns at least 1 and at most `min nb_packets 64`, provided no peek
returns more than the maximum it is given; and on a started stream the call
does return as soon as one answer of the surroundings ends the wait loop. -/
theorem C3_batch_clamped (c : xsk_consts) (env : rx_env) (libtrace : libtrace_t)
    (packet : List libtrace_packet_t) (mem : frame_mem) (stream : xsk_per_stream)
    (nb_packets : Nat)
    (hpeek : ∀ it ∈ env.iters, ∀ n, (it.peek n).1 ≤ n) :
    (∀ out, linux_xdp_read_stream c env libtrace packet mem stream nb_packets = some out →
      (∀ n, xsk_call.rx_peek n ∈ out.calls → n = min nb_packets RX_BATCH_SIZE) ∧
      (out.via = .packets →
        1 ≤ out.ret ∧ out.ret ≤ ((min nb_packets RX_BATCH_SIZE : Nat) : Int))) ∧
    (libtrace.format_data ≠ none → stream.umem ≠ none → stream.xsk ≠ none →
      (∃ it ∈ env.iters, rx_iter.ends (min nb_packets RX_BATCH_SIZE) it) →
      ∃ out, linux_xdp_read_stream c env libtrace packet mem stream nb_packets = some out) := by
  constructor
  · intro out h
    rcases read_stream_inv c env libtrace packet mem stream nb_packets out h with
      ⟨_, hb, _, hc, _⟩ | ⟨fd, freed, xsk, w, calls, _, hr, _, hw, rfl⟩
    · refine ⟨fun n hn => ?_, fun hv => ?_⟩
      · rw [hc] at hn; cases hn
      · rw [hb] at hv; cases hv
    · refine ⟨fun n hn => ?_, fun hv => ?_⟩
      · rw [read_finish_calls, recycle_prev_some stream freed hr, List.mem_append] at hn
        rcases hn with hn | hn
        · split at hn <;> simp at hn
        · exact rx_wait_loop_peeks _ _ w calls hw n hn
      · cases w with
        | halted ret => cases hv
        | poll_error e => cases hv
        | rcvd k idx =>
          obtain ⟨h1, it, hit, hk⟩ := rx_wait_loop_rcvd _ _ k idx calls hw
          have h2 := hpeek it hit (min nb_packets RX_BATCH_SIZE)
          have h3 : k ≤ min nb_packets RX_BATCH_SIZE :=
            hk ▸ le_trans (Nat.mod_le _ _) h2
          have h4 : min nb_packets RX_BATCH_SIZE ≤ 64 := Nat.min_le_right _ _
          simp only [read_finish]
          rw [c_int_of_lt k (by omega)]
          exact ⟨by exact_mod_cast h1, by exact_mod_cast h3⟩
  · intro hfd hu hx hends
    obtain ⟨fd, hfd⟩ := Option.ne_none_iff_exists'.mp hfd
    obtain ⟨u, hu⟩ := Option.ne_none_iff_exists'.mp hu
    obtain ⟨x, hx⟩ := Option.ne_none_iff_exists'.mp hx
    rw [read_stream_eq c env libtrace packet mem stream nb_packets fd _ x hfd
      (recycle_prev_started stream u x hu hx) hx]
    have := rx_wait_loop_isSome _ _ hends
    obtain ⟨q, hq⟩ := Option.isSome_iff_exists.mp this
    exact ⟨_, by rw [hq]; rfl⟩


/-- C3 witness: 100 packets are requested and 100 entries are in the ring;
the call asks for 64 and returns 64. -/
theorem C3_batch_clamped_witness :
    (∀ it ∈ (⟨[found 100 0], ring0, clock0⟩ : rx_env).iters, ∀ n, (it.peek n).1 ≤ n) ∧
    (linux_xdp_read_stream libbpf_consts ⟨[found 100 0], ring0, clock0⟩ trace0
      (List.replicate 100 blank_packet) zero_mem stream0 100).map
        (fun o => (o.ret, o.via, o.calls)) = some (64, .packets, [.rx_peek 64, .is_halted]) ∧
    (∀ out, linux_xdp_read_stream libbpf_consts ⟨[found 100 0], ring0, clock0⟩ trace0
        (List.replicate 100 blank_packet) zero_mem stream0 100 = some out →
      (∀ n, xsk_call.rx_peek n ∈ out.calls → n = min 100 RX_BATCH_SIZE) ∧
      (out.via = .packets → 1 ≤ out.ret ∧ out.ret ≤ ((min 100 RX_BATCH_SIZE : Nat) : Int))) :=
  ⟨by simp [found], by decide,
    (C3_batch_clamped libbpf_consts ⟨[found 100 0], ring0, clock0⟩ trace0
      (List.replicate 100 blank_packet) zero_mem stream0 100 (by simp [found])).1⟩

/-- Two descriptors of one batch whose metadata records overlap (frame
addresses 268 and 272, four bytes apart): the timestamp of the second
packet is stored over the length of the first, which then reads
`0x17979CFE` instead of 128. -/
theorem overlapping_metadata_records :
    (linux_xdp_read_stream libbpf_consts ⟨[found 2 0], ring_overlap, clock0⟩ trace0
        [blank_packet, blank_packet] zero_mem stream0 2).map
      (fun o => (o.ret, o.packet.map (fun p =>
        (p.payload, linux_xdp_get_wire_length o.mem p))))
      = some (2, [(1000268, 395812094), (1000272, 129)]) := by
  decide

/-- Descriptors of different frames whose payload starts at least 12 bytes
into its frame have metadata records that do not overlap: the ring
invariant under which packet lengths are read back. -/
theorem frames_apart (c : xsk_consts) (d1 d2 : xdp_desc)
    (hf : d1.addr / FRAME_SIZE c ≠ d2.addr / FRAME_SIZE c)
    (h1 : 12 ≤ d1.addr % FRAME_SIZE c) (h2 : 12 ≤ d2.addr % FRAME_SIZE c) :
    d2.addr + 12 ≤ d1.addr ∨ d1.addr + 12 ≤ d2.addr := by
  generalize FRAME_SIZE c = F at hf h1 h2
  have e1 := Nat.div_add_mod d1.addr F
  have e2 := Nat.div_add_mod d2.addr F
  have hF : 0 < F := by
    rcases Nat.eq_zero_or_pos F with h0 | h0
    · subst h0
      simp at hf
    · exact h0
  have m1 := Nat.mod_lt d1.addr hF
  have m2 := Nat.mod_lt d2.addr hF
  rcases Nat.lt_or_gt_of_ne hf with h | h
  · right
    have := Nat.mul_le_mul_left F (Nat.succ_le_of_lt h)
    rw [Nat.mul_succ] at this
    omega
  · left
    have := Nat.mul_le_mul_left F (Nat.succ_le_of_lt h)
    rw [Nat.mul_succ] at this
    omega

/-- C7: if the halt signal is set while the RX ring has no entries (after any
number of rounds that found nothing and polled), `linux_xdp_read_stream`
returns the value given by `is_halted`, which is not the error value -1; the
round that sees the halt calls neither `poll` nor `trace_set_err`, and no
packet record and no metadata is written. -/
theorem C7_halt_on_empty_ring (c : xsk_consts) (env : rx_env) (libtrace : libtrace_t)
    (packet : List libtrace_packet_t) (mem : frame_mem) (stream : xsk_per_stream)
    (nb_packets : Nat) (fd : xdp_format_data_t) (u : xsk_umem_info) (xsk : xsk_socket_info)
    (pre : List rx_iter) (it : rx_iter) (rest : List rx_iter)
    (hfd : libtrace.format_data = some fd) (hu : stream.umem = some u)
    (hx : stream.xsk = some xsk) (henv : env.iters = pre ++ it :: rest)
    (hpre : ∀ x ∈ pre, rx_iter.waits (min nb_packets RX_BATCH_SIZE) x)
    (hh : it.halted ≠ -1) (_hempty : peeked_count nb_packets it = 0) :
    ∃ out, linux_xdp_read_stream c env libtrace packet mem stream nb_packets = some out ∧
      out.via = .halted ∧ out.ret = it.halted ∧ out.ret ≠ -1 ∧
      out.libtrace = libtrace ∧ out.packet = packet ∧ out.mem = mem ∧ out.stream = stream ∧
      out.calls = (if stream.prev_rcvd ≠ 0 then
          [.fq_submit stream.prev_rcvd, .rx_release stream.prev_rcvd] else []) ++
        (wait_calls (min nb_packets RX_BATCH_SIZE) pre.length ++
          [.rx_peek (min nb_packets RX_BATCH_SIZE), .is_halted]) ∧
      (pre = [] → ∀ t, xsk_call.poll t ∉ out.calls) := by
  refine ⟨_, read_stream_halted c env libtrace packet mem stream nb_packets fd u xsk pre it rest
    hfd hu hx henv hpre hh, rfl, rfl, hh, rfl, rfl, rfl, rfl, rfl, ?_⟩
  intro hnil t
  subst hnil
  simp only [read_finish, List.length_nil, wait_calls, List.nil_append]
  split <;> simp

/-- C7 witness: the halt query answers 0 (end of trace) while the ring is
empty; the call returns 0 after one peek and one halt query. -/
theorem C7_halt_on_empty_ring_witness :
    (found_halted 0 0 0).halted ≠ -1 ∧ peeked_count 64 (found_halted 0 0 0) = 0 ∧
    ∃ out, linux_xdp_read_stream libbpf_consts ⟨[found_halted 0 0 0], ring0, clock0⟩ trace0
        (List.replicate 64 blank_packet) zero_mem stream0 64 = some out ∧
      out.via = .halted ∧ out.ret = (found_halted 0 0 0).halted ∧ out.ret ≠ -1 ∧
      out.libtrace = trace0 ∧ out.packet = List.replicate 64 blank_packet ∧
      out.mem = zero_mem ∧ out.stream = stream0 ∧
      out.calls = (if stream0.prev_rcvd ≠ 0 then
          [.fq_submit stream0.prev_rcvd, .rx_release stream0.prev_rcvd] else []) ++
        (wait_calls (min 64 RX_BATCH_SIZE) ([] : List rx_iter).length ++
          [.rx_peek (min 64 RX_BATCH_SIZE), .is_halted]) ∧
      (([] : List rx_iter) = [] → ∀ t, xsk_call.poll t ∉ out.calls) :=
  ⟨by decide, by decide,
    C7_halt_on_empty_ring libbpf_consts ⟨[found_halted 0 0 0], ring0, clock0⟩ trace0
      (List.replicate 64 blank_packet) zero_mem stream0 64 _ _ _ [] (found_halted 0 0 0) []
      rfl rfl rfl rfl (by simp) (by decide) (by decide)⟩

/-- C8 counterexample: the peek finds 2 descriptors while the halt query
answers 0; the call returns 0 through the halt path, writes no packet record
and records no delivered count, so the claim that it returns the 2 peeked
packets whatever the halt signal is false. -/
theorem C8_counterexample :
    (linux_xdp_read_stream libbpf_consts ⟨[found_halted 2 0 0], ring0, clock0⟩ trace0
        [blank_packet, blank_packet] zero_mem stream0 2).map
      (fun o => (o.ret, o.via, o.packet, o.stream.prev_rcvd, o.calls)) =
      some (0, .halted, [blank_packet, blank_packet], 0, [.rx_peek 2, .is_halted]) ∧
    ¬ ∀ (env : rx_env) (libtrace : libtrace_t) (packet : List libtrace_packet_t)
        (mem : frame_mem) (stream : xsk_per_stream) (nb_packets : Nat) (it : rx_iter)
        (rest : List rx_iter) (k : Nat),
        libtrace.format_data ≠ none → stream.umem ≠ none → stream.xsk ≠ none →
        env.iters = it :: rest → (it.peek (min nb_packets RX_BATCH_SIZE)).1 = k →
        1 ≤ k → k ≤ min nb_packets RX_BATCH_SIZE →
        (linux_xdp_read_stream libbpf_consts env libtrace packet mem stream nb_packets).map
          (fun o => o.ret) = some (k : Int) := by
  refine ⟨by decide, fun h => ?_⟩
  have h1 := h ⟨[found_halted 2 0 0], ring0, clock0⟩ trace0 [blank_packet, blank_packet]
    zero_mem stream0 2 (found_halted 2 0 0) [] 2 (by decide) (by decide) (by decide) rfl
    (by decide) (by decide) (by decide)
  revert h1
  decide

/-- C8 (as amended): the halt signal is consulted after every peek, whatever
the peek found.  When the peek yields `k >= 1` descriptors (`k < 2^31`) and
`is_halted` reports no halt, `linux_xdp_read_stream` returns `k`, records `k`
as delivered and writes the `k` packet records, record `i` from the
descriptor at ring index `idx + i`; when `is_halted` reports a halt, the call
returns the halt answer and writes no packet record. -/
theorem C8_peeked_delivered_unless_halted (c : xsk_consts) (env : rx_env)
    (libtrace : libtrace_t) (packet : List libtrace_packet_t) (mem : frame_mem)
    (stream : xsk_per_stream) (nb_packets : Nat) (fd : xdp_format_data_t)
    (u : xsk_umem_info) (xsk : xsk_socket_info)
    (pre : List rx_iter) (it : rx_iter) (rest : List rx_iter) (k : Nat)
    (hfd : libtrace.format_data = some fd) (hu : stream.umem = some u)
    (hx : stream.xsk = some xsk) (henv : env.iters = pre ++ it :: rest)
    (hpre : ∀ x ∈ pre, rx_iter.waits (min nb_packets RX_BATCH_SIZE) x)
    (hk : (it.peek (min nb_packets RX_BATCH_SIZE)).1 = k) (hk1 : 1 ≤ k)
    (hk2 : k < 2147483648) :
    (it.halted = -1 →
      ∃ out, linux_xdp_read_stream c env libtrace packet mem stream nb_packets = some out ∧
        out.via = .packets ∧ out.ret = (k : Int) ∧ out.stream.prev_rcvd = k ∧
        out.packet.length = packet.length ∧
        ∀ i, i < k → i < packet.length →
          out.packet[i]? = some
            { buf_control := .TRACE_CTRL_EXTERNAL
              type := .TRACE_RT_DATA_XDP
              buffer := xsk.umem.buffer + (peeked_desc env nb_packets it i).addr
                - FRAME_HEADROOM c
              header := xsk.umem.buffer + (peeked_desc env nb_packets it i).addr
                - FRAME_HEADROOM c
              payload := xsk.umem.buffer + (peeked_desc env nb_packets it i).addr
              error := 1 }) ∧
    (it.halted ≠ -1 →
      ∃ out, linux_xdp_read_stream c env libtrace packet mem stream nb_packets = some out ∧
        out.via = .halted ∧ out.ret = it.halted ∧ out.packet = packet ∧ out.mem = mem ∧
        out.stream = stream) := by
  have hpc : peeked_count nb_packets it = k := by
    unfold peeked_count
    rw [hk]
    exact Nat.mod_eq_of_lt (by omega)
  have hidx : peeked_idx nb_packets it < 4294967296 := Nat.mod_lt _ (by norm_num)
  constructor
  · intro hh
    refine ⟨_, read_stream_found c env libtrace packet mem stream nb_packets fd u xsk pre it
      rest hfd hu hx henv hpre hh (by omega), by simp only [read_finish], ?_, ?_, ?_, ?_⟩
    · simp only [read_finish]
      rw [hpc, c_int_of_lt k hk2]
    · simp only [read_finish]
      exact hpc
    · simp only [read_finish]
      rw [deliver_loop_length]
    · intro i hi hlen
      simp only [read_finish, peeked_desc]
      exact deliver_loop_packet c env xsk.umem.buffer
        { packet := packet, mem := mem, stream := stream, idx_rx := peeked_idx nb_packets it }
        hidx (peeked_count nb_packets it) i (by omega) hlen
  · intro hh
    exact ⟨_, read_stream_halted c env libtrace packet mem stream nb_packets fd u xsk pre it
      rest hfd hu hx henv hpre hh, rfl, rfl, rfl, rfl, rfl⟩

/-- C8 witness: two descriptors are found and no halt is reported. -/
theorem C8_peeked_delivered_unless_halted_witness :
    ((found 2 0).peek (min 2 RX_BATCH_SIZE)).1 = 2 ∧ (found 2 0).halted = -1 ∧
    ∃ out, linux_xdp_read_stream libbpf_consts ⟨[found 2 0], ring0, clock0⟩ trace0
        [blank_packet, blank_packet] zero_mem stream0 2 = some out ∧
      out.via = .packets ∧ out.ret = ((2 : Nat) : Int) ∧ out.stream.prev_rcvd = 2 ∧
      out.packet.length = [blank_packet, blank_packet].length ∧
      ∀ i, i < 2 → i < [blank_packet, blank_packet].length →
        out.packet[i]? = some
          { buf_control := .TRACE_CTRL_EXTERNAL
            type := .TRACE_RT_DATA_XDP
            buffer := (1000000 : Int) +
              (peeked_desc ⟨[found 2 0], ring0, clock0⟩ 2 (found 2 0) i).addr
              - FRAME_HEADROOM libbpf_consts
            header := (1000000 : Int) +
              (peeked_desc ⟨[found 2 0], ring0, clock0⟩ 2 (found 2 0) i).addr
              - FRAME_HEADROOM libbpf_consts
            payload := (1000000 : Int) +
              (peeked_desc ⟨[found 2 0], ring0, clock0⟩ 2 (found 2 0) i).addr
            error := 1 } :=
  ⟨by decide, by decide,
    (C8_peeked_delivered_unless_halted libbpf_consts ⟨[found 2 0], ring0, clock0⟩ trace0
      [blank_packet, blank_packet] zero_mem stream0 2 _ _ _ [] (found 2 0) [] 2
      rfl rfl rfl rfl (by simp) (by decide) (by decide) (by decide)).1 (by decide)⟩

/-! ### Populating the fill ring -/

theorem u64_c_int_of_lt (n : Nat) (h : n < 2147483648) : u64 (c_int (n : Int)) = n := by
  rw [c_int_of_lt n h]
  unfold u64
  omega

theorem populate_loop_eq (c : xsk_consts) (n : Nat) :
    ∀ (i idx : Nat), idx < 4294967296 →
      populate_loop c n i idx = (List.range n).map (fun j =>
        xsk_call.fq_fill_addr ((idx + j) % 4294967296)
          (u64 (c_int (((i + j : Nat) : Int) * (FRAME_SIZE c : Int))))) := by
  induction n with
  | zero => intro i idx _; rfl
  | succ n ih =>
    intro i idx hidx
    rw [populate_loop, ih (i + 1) ((idx + 1) % 4294967296) (Nat.mod_lt _ (by norm_num)),
      List.range_succ_eq_map, List.map_cons, List.map_map]
    congr 1
    · simp [Nat.mod_eq_of_lt hidx]
    · apply List.map_congr_left
      intro j _
      simp only [Function.comp_apply, Nat.succ_eq_add_one]
      have h1 : ((idx + 1) % 4294967296 + j) % 4294967296 = (idx + (j + 1)) % 4294967296 := by
        omega
      have h2 : i + 1 + j = i + (j + 1) := by omega
      rw [h1, h2]

theorem populate_success (c : xsk_consts) (reserve : Nat → Nat × Nat)
    (hov : c.XSK_RING_PROD__DEFAULT_NUM_DESCS * FRAME_SIZE c < 2147483648)
    (hres : c_int ((reserve c.XSK_RING_PROD__DEFAULT_NUM_DESCS).1 : Int) =
      (c.XSK_RING_PROD__DEFAULT_NUM_DESCS : Int)) :
    xsk_populate_fill_ring c reserve =
      [.fq_reserve c.XSK_RING_PROD__DEFAULT_NUM_DESCS] ++
        (List.range c.XSK_RING_PROD__DEFAULT_NUM_DESCS).map (fun i =>
          xsk_call.fq_fill_addr
            (((reserve c.XSK_RING_PROD__DEFAULT_NUM_DESCS).2 % 4294967296 + i) % 4294967296)
            (i * FRAME_SIZE c)) ++
        [.fq_submit c.XSK_RING_PROD__DEFAULT_NUM_DESCS] := by
  unfold xsk_populate_fill_ring
  simp only [ne_eq, hres, not_true_eq_false, if_false]
  rw [populate_loop_eq c _ 0 _ (Nat.mod_lt _ (by norm_num))]
  have hl : (List.range c.XSK_RING_PROD__DEFAULT_NUM_DESCS).map (fun j =>
        xsk_call.fq_fill_addr
          (((reserve c.XSK_RING_PROD__DEFAULT_NUM_DESCS).2 % 4294967296 + j) % 4294967296)
          (u64 (c_int (((0 + j : Nat) : Int) * (FRAME_SIZE c : Int))))) =
      (List.range c.XSK_RING_PROD__DEFAULT_NUM_DESCS).map (fun i =>
        xsk_call.fq_fill_addr
          (((reserve c.XSK_RING_PROD__DEFAULT_NUM_DESCS).2 % 4294967296 + i) % 4294967296)
          (i * FRAME_SIZE c)) := by
    apply List.map_congr_left
    intro j hj
    have hj2 : j < c.XSK_RING_PROD__DEFAULT_NUM_DESCS := List.mem_range.mp hj
    have hle : j * FRAME_SIZE c ≤ c.XSK_RING_PROD__DEFAULT_NUM_DESCS * FRAME_SIZE c :=
      Nat.mul_le_mul_right _ (le_of_lt hj2)
    have hcast : (((0 + j : Nat) : Int) * (FRAME_SIZE c : Int)) =
        ((j * FRAME_SIZE c : Nat) : Int) := by
      push_cast
      ring
    rw [hcast, u64_c_int_of_lt _ (by omega)]
  rw [hl]

theorem populate_failure (c : xsk_consts) (reserve : Nat → Nat × Nat)
    (hres : c_int ((reserve c.XSK_RING_PROD__DEFAULT_NUM_DESCS).1 : Int) ≠
      (c.XSK_RING_PROD__DEFAULT_NUM_DESCS : Int)) :
    xsk_populate_fill_ring c reserve =
      [.fq_reserve c.XSK_RING_PROD__DEFAULT_NUM_DESCS,
       .stderr " error allocating xdp fill queue\n"] := by
  unfold xsk_populate_fill_ring
  simp only [ne_eq, hres, not_false_eq_true, if_true]

/-- Only the frames below the ring depth are written to the fill ring. -/
theorem populate_not_written (c : xsk_consts) (reserve : Nat → Nat × Nat)
    (hfs : 0 < FRAME_SIZE c)
    (hov : c.XSK_RING_PROD__DEFAULT_NUM_DESCS * FRAME_SIZE c < 2147483648)
    (hres : c_int ((reserve c.XSK_RING_PROD__DEFAULT_NUM_DESCS).1 : Int) =
      (c.XSK_RING_PROD__DEFAULT_NUM_DESCS : Int))
    (f idx : Nat) (hf : c.XSK_RING_PROD__DEFAULT_NUM_DESCS ≤ f) :
    xsk_call.fq_fill_addr idx (f * FRAME_SIZE c) ∉ xsk_populate_fill_ring c reserve := by
  rw [populate_success c reserve hov hres]
  intro hmem
  simp only [List.cons_append, List.nil_append, List.mem_cons, reduceCtorEq, List.mem_append,
    List.mem_map, List.mem_range, xsk_call.fq_fill_addr.injEq, List.mem_singleton,
    or_false, false_or, List.not_mem_nil] at hmem
  obtain ⟨i, hi, _, heq⟩ := hmem
  have := Nat.eq_of_mul_eq_mul_right hfs heq
  omega

/-- C5 (as amended): when the reservation succeeds, `xsk_populate_fill_ring`
writes the base addresses of the first `XSK_RING_PROD__DEFAULT_NUM_DESCS`
frames and of no other frame: slot `idx + i` receives `i * FRAME_SIZE`, in
increasing order, every address and every slot once; the addresses lie inside
the region of `NUM_FRAMES` frames when the ring depth is at most
`NUM_FRAMES`; and the last call publishes exactly the reserved number. -/
theorem C5_fill_ring_populated (c : xsk_consts) (reserve : Nat → Nat × Nat)
    (hfs : 0 < FRAME_SIZE c)
    (hov : c.XSK_RING_PROD__DEFAULT_NUM_DESCS * FRAME_SIZE c < 2147483648)
    (hres : c_int ((reserve c.XSK_RING_PROD__DEFAULT_NUM_DESCS).1 : Int) =
      (c.XSK_RING_PROD__DEFAULT_NUM_DESCS : Int)) :
    xsk_populate_fill_ring c reserve =
      [.fq_reserve c.XSK_RING_PROD__DEFAULT_NUM_DESCS] ++
        (List.range c.XSK_RING_PROD__DEFAULT_NUM_DESCS).map (fun i =>
          xsk_call.fq_fill_addr
            (((reserve c.XSK_RING_PROD__DEFAULT_NUM_DESCS).2 % 4294967296 + i) % 4294967296)
            (i * FRAME_SIZE c)) ++
        [.fq_submit c.XSK_RING_PROD__DEFAULT_NUM_DESCS] ∧
    ((List.range c.XSK_RING_PROD__DEFAULT_NUM_DESCS).map (fun i => i * FRAME_SIZE c)).Nodup ∧
    ((List.range c.XSK_RING_PROD__DEFAULT_NUM_DESCS).map (fun i =>
      ((reserve c.XSK_RING_PROD__DEFAULT_NUM_DESCS).2 % 4294967296 + i) % 4294967296)).Nodup ∧
    (c.XSK_RING_PROD__DEFAULT_NUM_DESCS ≤ NUM_FRAMES →
      ∀ i, i < c.XSK_RING_PROD__DEFAULT_NUM_DESCS →
        i * FRAME_SIZE c + FRAME_SIZE c ≤ NUM_FRAMES * FRAME_SIZE c) ∧
    (∀ f idx, c.XSK_RING_PROD__DEFAULT_NUM_DESCS ≤ f →
      xsk_call.fq_fill_addr idx (f * FRAME_SIZE c) ∉ xsk_populate_fill_ring c reserve) := by
  have hD : c.XSK_RING_PROD__DEFAULT_NUM_DESCS < 2147483648 :=
    lt_of_le_of_lt (Nat.le_mul_of_pos_right _ hfs) hov
  refine ⟨populate_success c reserve hov hres, ?_, ?_, ?_,
    fun f idx hf => populate_not_written c reserve hfs hov hres f idx hf⟩
  · refine List.Nodup.map ?_ (List.nodup_range _)
    intro a b hab
    exact Nat.eq_of_mul_eq_mul_right hfs hab
  · refine List.Nodup.map_on ?_ (List.nodup_range _)
    intro a ha b hb hab
    have ha2 := List.mem_range.mp ha
    have hb2 := List.mem_range.mp hb
    omega
  · intro hle i hi
    have h1 : (i + 1) * FRAME_SIZE c ≤ NUM_FRAMES * FRAME_SIZE c :=
      Nat.mul_le_mul_right _ (by omega)
    rw [Nat.add_mul, Nat.one_mul] at h1
    exact h1

/-- C5 witness: libbpf's constants, the reservation granted at ring index 5. -/
theorem C5_fill_ring_populated_witness :
    c_int (((reserve_all 5) libbpf_consts.XSK_RING_PROD__DEFAULT_NUM_DESCS).1 : Int) =
      (libbpf_consts.XSK_RING_PROD__DEFAULT_NUM_DESCS : Int) ∧
    xsk_populate_fill_ring libbpf_consts (reserve_all 5) =
      [.fq_reserve libbpf_consts.XSK_RING_PROD__DEFAULT_NUM_DESCS] ++
        (List.range libbpf_consts.XSK_RING_PROD__DEFAULT_NUM_DESCS).map (fun i =>
          xsk_call.fq_fill_addr
            ((((reserve_all 5) libbpf_consts.XSK_RING_PROD__DEFAULT_NUM_DESCS).2 % 4294967296 + i)
              % 4294967296)
            (i * FRAME_SIZE libbpf_consts)) ++
        [.fq_submit libbpf_consts.XSK_RING_PROD__DEFAULT_NUM_DESCS] :=
  ⟨by decide,
    (C5_fill_ring_populated libbpf_consts (reserve_all 5) (by decide) (by decide)
      (by decide)).1⟩

/-- C5 counterexample: with libbpf's ring depth 2048 and `NUM_FRAMES = 4096`
the reservation succeeds, but frame 2048 of the pool, at base address
`2048 * FRAME_SIZE` inside the region, is written to no slot: not every
frame of the pool is put on the fill ring. -/
theorem C5_counterexample :
    c_int (((reserve_all 0) libbpf_consts.XSK_RING_PROD__DEFAULT_NUM_DESCS).1 : Int) =
      (libbpf_consts.XSK_RING_PROD__DEFAULT_NUM_DESCS : Int) ∧
    2048 * FRAME_SIZE libbpf_consts + FRAME_SIZE libbpf_consts
      ≤ NUM_FRAMES * FRAME_SIZE libbpf_consts ∧
    ¬ ∀ f, f < NUM_FRAMES → ∃ idx,
        xsk_call.fq_fill_addr idx (f * FRAME_SIZE libbpf_consts) ∈
          xsk_populate_fill_ring libbpf_consts (reserve_all 0) := by
  refine ⟨by decide, by decide, fun h => ?_⟩
  obtain ⟨idx, hidx⟩ := h 2048 (by decide)
  exact populate_not_written libbpf_consts (reserve_all 0) (by decide) (by decide) (by decide)
    2048 idx (by decide) hidx

/-! ### Starting a stream -/

/-- If the reservation grants fewer entries than asked for, nothing is
written or published, yet the pool is returned as if it were usable. -/
theorem configure_umem_reservation_failed (c : xsk_consts) (e : stream_env) (buffer : Int)
    (size : Nat) (q : Int) (hc : e.umem_calloc = true) (hu : e.xsk_umem__create = 0)
    (hres : c_int ((e.fq_reserve c.XSK_RING_PROD__DEFAULT_NUM_DESCS).1 : Int) ≠
      (c.XSK_RING_PROD__DEFAULT_NUM_DESCS : Int)) :
    configure_xsk_umem c e buffer size q =
      (some { xsk_if_queue := q, buffer := buffer },
        [.fq_reserve c.XSK_RING_PROD__DEFAULT_NUM_DESCS,
         .stderr " error allocating xdp fill queue\n"]) := by
  unfold configure_xsk_umem
  simp [hc, hu, populate_failure c e.fq_reserve hres]

/-- C6 (evaluation at the failing input): the reservation of the fill ring
grants no entry while every other step succeeds.  No descriptor is written
or published and the error message is printed, but `configure_xsk_umem`
still returns the pool and `linux_xdp_start_stream` returns 0 with the
stream's pool and socket set. -/
theorem C6_reservation_failure_not_reported :
    configure_xsk_umem libbpf_consts { stream_ok 0 with fq_reserve := reserve_none }
        1000000 (NUM_FRAMES * FRAME_SIZE libbpf_consts) 0 =
      (some { xsk_if_queue := 0, buffer := 1000000 },
        [.fq_reserve 2048, .stderr " error allocating xdp fill queue\n"]) ∧
    linux_xdp_start_stream libbpf_consts { stream_ok 0 with fq_reserve := reserve_none }
        (trace_init 1) empty_stream 0 =
      some { ret := 0, libtrace := trace_init 1,
             stream := { umem := some { xsk_if_queue := 0, buffer := 1000000 },
                         xsk := some { umem := { xsk_if_queue := 0, buffer := 1000000 } },
                         prev_rcvd := 0, prev_sys_time := 0 },
             calls := [.fq_reserve 2048, .stderr " error allocating xdp fill queue\n"] } := by
  constructor <;> decide

/-- Once the queue count is set, `linux_xdp_pstart_input` returns 0 whatever
the calls of `linux_xdp_start_stream` returned. -/
theorem pstart_input_ret (c : xsk_consts) (e : pstart_env) (libtrace : libtrace_t)
    (out : input_out) (h : linux_xdp_pstart_input c e libtrace = some out) :
    out.ret = 0 ∨ (out.ret = -1 ∧ out.calls = [] ∧
      out.libtrace.format_data = libtrace.format_data ∧
      ∃ fd, libtrace.format_data = some fd ∧
        linux_xdp_set_current_queues e.queues fd.cfg.ifname libtrace.perpkt_thread_count < 0) := by
  unfold linux_xdp_pstart_input at h
  cases hfd : libtrace.format_data with
  | none => simp [hfd] at h
  | some fd =>
    simp only [hfd] at h
    split at h
    · rename_i hq
      cases h
      exact Or.inr ⟨rfl, rfl, by simp [trace_set_err, hfd], fd, rfl, hq⟩
    · cases hl : pstart_loop c e libtrace.perpkt_thread_count.toNat 0 libtrace with
      | none => simp [hl] at h
      | some q =>
        simp only [hl, Option.map_some', Option.some.injEq] at h
        subst h
        exact Or.inl rfl

/-- C10 (evaluation at the failing input): two worker threads, the queue
count is set; pool set-up fails for stream 0 and socket binding fails for
stream 1, so `linux_xdp_start_stream` returns -1 for both, and
`linux_xdp_start_input` returns that -1 to its caller; yet
`linux_xdp_pstart_input` returns 0, leaving a stream without pool and a
stream without socket in the list. -/
theorem C10_stream_start_failure_not_returned :
    (linux_xdp_start_stream libbpf_consts umem_fails (trace_init 2) empty_stream 0).map
        (fun r => r.ret) = some (-1) ∧
    (linux_xdp_start_stream libbpf_consts socket_fails (trace_init 2) empty_stream 1).map
        (fun r => r.ret) = some (-1) ∧
    (linux_xdp_start_input libbpf_consts umem_fails (trace_init 2)).map
        (fun o => o.ret) = some (-1) ∧
    (linux_xdp_start_input libbpf_consts socket_fails (trace_init 2)).map
        (fun o => o.ret) = some (-1) ∧
    (linux_xdp_pstart_input libbpf_consts
        ⟨queues_ok, fun i => if i = 0 then umem_fails else socket_fails⟩ (trace_init 2)).map
        (fun o => (o.ret, o.libtrace.err.err_num,
          o.libtrace.format_data.map (fun d => d.per_stream.map
            (fun s => (s.umem.isSome, s.xsk.isSome))))) =
      some (0, .TRACE_ERR_INIT_FAILED, some [(false, false), (true, false)]) := by
  refine ⟨by decide, by decide, by decide, by decide, by decide⟩

/-! ### Reading the timestamp back -/

theorem c_long_of_lt (n : Nat) (h : n < 9223372036854775808) : c_long (n : Int) = (n : Int) := by
  unfold c_long
  split <;> omega

theorem get_timespec_eq (mem : frame_mem) (packet : libtrace_packet_t)
    (h : (PACKET_META mem packet).timestamp < 18446744073709551616) :
    linux_xdp_get_timespec mem packet =
      { tv_sec := (((PACKET_META mem packet).timestamp / 1000000000 : Nat) : Int)
        tv_nsec := (((PACKET_META mem packet).timestamp % 1000000000 : Nat) : Int) } := by
  unfold linux_xdp_get_timespec
  rw [c_long_of_lt _ (by omega), c_long_of_lt _ (by omega)]

theorem get_timeval_eq (mem : frame_mem) (packet : libtrace_packet_t)
    (h : (PACKET_META mem packet).timestamp < 18446744073709551616) :
    linux_xdp_get_timeval mem packet =
      { tv_sec := (((PACKET_META mem packet).timestamp / 1000000000 : Nat) : Int)
        tv_usec := ((((PACKET_META mem packet).timestamp % 1000000000) / 1000 : Nat) : Int) } := by
  unfold linux_xdp_get_timeval
  rw [c_long_of_lt _ (by omega), c_long_of_lt _ (by omega)]

/-- C13: for every 64-bit nanosecond timestamp `t` in a packet's metadata,
`linux_xdp_get_timespec` returns `tv_sec = t / 10^9` and `tv_nsec = t mod
10^9`, so `tv_sec * 10^9 + tv_nsec = t` and `0 <= tv_nsec < 10^9`;
`linux_xdp_get_timeval` returns the same `tv_sec` with `tv_usec = tv_nsec /
1000`, so `0 <= tv_usec < 10^6`; and both conversions are monotone: a
timestamp that is not smaller gives a pair that is not smaller, seconds
first. -/
theorem C13_timestamp_conversions (mem : frame_mem) (packet : libtrace_packet_t)
    (mem2 : frame_mem) (packet2 : libtrace_packet_t)
    (h : (PACKET_META mem packet).timestamp < 18446744073709551616)
    (h2 : (PACKET_META mem2 packet2).timestamp < 18446744073709551616) :
    (linux_xdp_get_timespec mem packet).tv_sec =
      (((PACKET_META mem packet).timestamp / 1000000000 : Nat) : Int) ∧
    (linux_xdp_get_timespec mem packet).tv_nsec =
      (((PACKET_META mem packet).timestamp % 1000000000 : Nat) : Int) ∧
    (linux_xdp_get_timespec mem packet).tv_sec * 1000000000 +
      (linux_xdp_get_timespec mem packet).tv_nsec = ((PACKET_META mem packet).timestamp : Int) ∧
    0 ≤ (linux_xdp_get_timespec mem packet).tv_nsec ∧
    (linux_xdp_get_timespec mem packet).tv_nsec < 1000000000 ∧
    (linux_xdp_get_timeval mem packet).tv_sec = (linux_xdp_get_timespec mem packet).tv_sec ∧
    (linux_xdp_get_timeval mem packet).tv_usec =
      (linux_xdp_get_timespec mem packet).tv_nsec / 1000 ∧
    0 ≤ (linux_xdp_get_timeval mem packet).tv_usec ∧
    (linux_xdp_get_timeval mem packet).tv_usec < 1000000 ∧
    ((PACKET_META mem packet).timestamp ≤ (PACKET_META mem2 packet2).timestamp →
      ((linux_xdp_get_timespec mem packet).tv_sec < (linux_xdp_get_timespec mem2 packet2).tv_sec ∨
        ((linux_xdp_get_timespec mem packet).tv_sec =
            (linux_xdp_get_timespec mem2 packet2).tv_sec ∧
          (linux_xdp_get_timespec mem packet).tv_nsec ≤
            (linux_xdp_get_timespec mem2 packet2).tv_nsec)) ∧
      ((linux_xdp_get_timeval mem packet).tv_sec < (linux_xdp_get_timeval mem2 packet2).tv_sec ∨
        ((linux_xdp_get_timeval mem packet).tv_sec =
            (linux_xdp_get_timeval mem2 packet2).tv_sec ∧
          (linux_xdp_get_timeval mem packet).tv_usec ≤
            (linux_xdp_get_timeval mem2 packet2).tv_usec))) := by
  rw [get_timespec_eq mem packet h, get_timeval_eq mem packet h,
    get_timespec_eq mem2 packet2 h2, get_timeval_eq mem2 packet2 h2]
  simp only
  refine ⟨trivial, trivial, ?_, ?_, ?_, trivial, ?_, ?_, ?_, ?_⟩
  · omega
  · omega
  · omega
  · omega
  · omega
  · omega
  · intro hle
    constructor <;> omega

/-- C13 witness: the timestamps 1700000000.123456789 s and one nanosecond
later. -/
theorem C13_timestamp_conversions_witness :
    (PACKET_META (mem_at 1700000000123456789) blank_packet).timestamp < 18446744073709551616 ∧
    linux_xdp_get_timespec (mem_at 1700000000123456789) blank_packet =
      { tv_sec := 1700000000, tv_nsec := 123456789 } ∧
    linux_xdp_get_timeval (mem_at 1700000000123456789) blank_packet =
      { tv_sec := 1700000000, tv_usec := 123456 } ∧
    (linux_xdp_get_timespec (mem_at 1700000000123456789) blank_packet).tv_sec * 1000000000 +
      (linux_xdp_get_timespec (mem_at 1700000000123456789) blank_packet).tv_nsec =
        ((PACKET_META (mem_at 1700000000123456789) blank_packet).timestamp : Int) :=
  ⟨by decide, by decide, by decide,
    (C13_timestamp_conversions (mem_at 1700000000123456789) blank_packet
      (mem_at 1700000000123456790) blank_packet (by decide) (by decide)).2.2.1⟩

/-! ### Queue negotiation -/

theorem c_int_u32 (q : Int) (h1 : -2147483648 ≤ q) (h2 : q < 2147483648) :
    c_int ((u32 q : Nat) : Int) = q := by
  unfold c_int u32
  split <;> omega

theorem set_current_queues_eq (e : queue_env) (ifname : String) (queues : Int) :
    linux_xdp_set_current_queues e ifname queues =
      if (queues_query e ifname).1 = 0 then
        if (combined_reply e ifname queues).1 = 0 then
          c_int (combined_reply e ifname queues).2.combined_count
        else if (rxtx_reply e ifname queues).1 = 0 then
          c_int (rxtx_reply e ifname queues).2.rx_count
        else -1
      else -1 := by
  simp only [linux_xdp_set_current_queues, queues_query, combined_reply, combined_request,
    rxtx_reply, rxtx_request]

/-- A request is answered with 0 exactly when the control socket could be
opened and the driver's `ioctl` succeeded. -/
theorem send_ioctl_zero_iff (e : ioctl_env) (channels : ethtool_channels) (ifname : String)
    (herrno : e.socket < 0 → e.socket_errno ≠ 0) (herrno2 : e.ioctl ≠ 0 → e.ioctl_errno ≠ 0) :
    (linux_xdp_send_ioctl_ethtool e channels ifname).1 = 0 ↔ (0 ≤ e.socket ∧ e.ioctl = 0) := by
  unfold linux_xdp_send_ioctl_ethtool
  by_cases hs : e.socket < 0
  · have := herrno hs
    simp only [hs, if_true, neg_eq_zero]
    constructor
    · intro h; exact absurd h this
    · intro h; omega
  · simp only [hs, if_false]
    by_cases hi : e.ioctl = 0
    · simp [hi]
      omega
    · by_cases hn : e.ioctl_errno = EOPNOTSUPP
      · simp [hi, hn]
      · simp only [ne_eq, hi, not_false_eq_true, hn, and_self, if_true, neg_eq_zero, and_false,
          iff_false]
        exact herrno2 hi

/-- C11: `linux_xdp_set_current_queues` first sends a set request with the
combined count at the requested value and returns the requested value if it
is accepted (the call leaving the count as sent); if that is rejected it
sends one more set request with the RX and TX counts at the requested value
and the combined count back at the queried value, and returns the requested
value if that is accepted; in every other case, a failed query included, it
returns -1, and then `linux_xdp_pstart_input` returns -1, having made no
call on a ring and leaving the format data with its stream list as it was. -/
theorem C11_queue_negotiation (c : xsk_consts) (e : pstart_env) (libtrace : libtrace_t)
    (fd : xdp_format_data_t) (queues : Int)
    (hlo : -2147483648 ≤ queues) (hhi : queues < 2147483648)
    (hfd : libtrace.format_data = some fd)
    (hth : libtrace.perpkt_thread_count = queues) :
    ((combined_request e.queues fd.cfg.ifname queues).cmd = .ETHTOOL_SCHANNELS ∧
      (combined_request e.queues fd.cfg.ifname queues).combined_count = u32 queues ∧
      (0 ≤ queues →
        ((combined_request e.queues fd.cfg.ifname queues).combined_count : Int) = queues)) ∧
    ((queues_query e.queues fd.cfg.ifname).1 = 0 →
      (combined_reply e.queues fd.cfg.ifname queues).1 = 0 →
      (combined_reply e.queues fd.cfg.ifname queues).2.combined_count =
        (combined_request e.queues fd.cfg.ifname queues).combined_count →
      linux_xdp_set_current_queues e.queues fd.cfg.ifname queues = queues) ∧
    ((rxtx_request e.queues fd.cfg.ifname queues).rx_count = u32 queues ∧
      (rxtx_request e.queues fd.cfg.ifname queues).tx_count = u32 queues ∧
      (rxtx_request e.queues fd.cfg.ifname queues).combined_count =
        (queues_query e.queues fd.cfg.ifname).2.combined_count) ∧
    ((queues_query e.queues fd.cfg.ifname).1 = 0 →
      (combined_reply e.queues fd.cfg.ifname queues).1 ≠ 0 →
      (rxtx_reply e.queues fd.cfg.ifname queues).1 = 0 →
      (rxtx_reply e.queues fd.cfg.ifname queues).2.rx_count =
        (rxtx_request e.queues fd.cfg.ifname queues).rx_count →
      linux_xdp_set_current_queues e.queues fd.cfg.ifname queues = queues) ∧
    (((queues_query e.queues fd.cfg.ifname).1 ≠ 0 ∨
        ((combined_reply e.queues fd.cfg.ifname queues).1 ≠ 0 ∧
          (rxtx_reply e.queues fd.cfg.ifname queues).1 ≠ 0)) →
      linux_xdp_set_current_queues e.queues fd.cfg.ifname queues = -1 ∧
      ∃ out, linux_xdp_pstart_input c e libtrace = some out ∧ out.ret = -1 ∧
        out.calls = [] ∧ out.libtrace.format_data = some fd) := by
  refine ⟨⟨rfl, rfl, fun h0 => ?_⟩, ?_, ⟨rfl, rfl, rfl⟩, ?_, ?_⟩
  · simp only [combined_request, u32]
    omega
  · intro h1 h2 h3
    rw [set_current_queues_eq, if_pos h1, if_pos h2, h3]
    simp only [combined_request]
    exact c_int_u32 queues hlo hhi
  · intro h1 h2 h3 h4
    rw [set_current_queues_eq, if_pos h1, if_neg h2, if_pos h3, h4]
    simp only [rxtx_request]
    exact c_int_u32 queues hlo hhi
  · intro h
    have hset : linux_xdp_set_current_queues e.queues fd.cfg.ifname queues = -1 := by
      rw [set_current_queues_eq]
      rcases h with h1 | ⟨h2, h3⟩
      · rw [if_neg h1]
      · rw [if_neg h2, if_neg h3]
        split <;> rfl
    refine ⟨hset, ?_⟩
    have hlt : linux_xdp_set_current_queues e.queues fd.cfg.ifname queues < 0 := by
      rw [hset]
      decide
    refine ⟨{ ret := -1,
              libtrace := trace_set_err libtrace .TRACE_ERR_INIT_FAILED
                "Unable to set number of NIC queues to match the number of processing threads, try reduce the number of threads",
              calls := [] }, ?_, rfl, rfl, ?_⟩
    · simp only [linux_xdp_pstart_input, hfd, hth, hlt, if_true]
    · simp only [trace_set_err, hfd]

/-- C11 witness: 4 queues are requested on a device with 8 combined queues
that rejects the combined count and accepts the RX and TX counts; on a
device that rejects both, the start of 4 threads fails with -1. -/
theorem C11_queue_negotiation_witness :
    linux_xdp_set_current_queues queues_ok "eth0" 4 = 4 ∧
    linux_xdp_set_current_queues queues_rxtx_only "eth0" 4 = 4 ∧
    rxtx_request queues_rxtx_only "eth0" 4 =
      { cmd := .ETHTOOL_SCHANNELS, max_rx := 0, max_tx := 0, max_other := 0,
        max_combined := 64, rx_count := 4, tx_count := 4, other_count := 0,
        combined_count := 8 } ∧
    linux_xdp_set_current_queues queues_fixed "eth0" 4 = -1 ∧
    (linux_xdp_pstart_input libbpf_consts ⟨queues_fixed, stream_ok⟩ (trace_init 4)).map
      (fun o => (o.ret, o.calls, o.libtrace.format_data.map (fun d => d.per_stream))) =
      some (-1, [], some []) ∧
    ((queues_query queues_rxtx_only "eth0").1 = 0 →
      (combined_reply queues_rxtx_only "eth0" 4).1 ≠ 0 →
      (rxtx_reply queues_rxtx_only "eth0" 4).1 = 0 →
      (rxtx_reply queues_rxtx_only "eth0" 4).2.rx_count =
        (rxtx_request queues_rxtx_only "eth0" 4).rx_count →
      linux_xdp_set_current_queues queues_rxtx_only "eth0" 4 = 4) :=
  ⟨by decide, by decide, by decide, by decide, by decide,
    (C11_queue_negotiation libbpf_consts ⟨queues_rxtx_only, stream_ok⟩ (trace_init 4)
      { cfg := { xdp_flags := 0, ifindex := 2, ifname := "eth0", xsk_bind_flags := 0 },
        per_stream := [] } 4 (by decide) (by decide) rfl rfl).2.2.2.1⟩

/-! ### The device name -/

theorem strchr_none (c : Char) (l : List Char) (h : c ∉ l) : strchr l c = none := by
  induction l with
  | nil => rfl
  | cons x xs ih =>
    have hx : x ≠ c := fun hxc => h (hxc ▸ List.mem_cons_self _ _)
    simp only [strchr, hx, if_false]
    exact ih (fun hm => h (List.mem_cons_of_mem _ hm))

theorem strchr_some (c : Char) (pre name : List Char) (h : c ∉ pre) :
    strchr (pre ++ c :: name) c = some (c :: name) := by
  induction pre with
  | nil => simp [strchr]
  | cons x xs ih =>
    have hx : x ≠ c := fun hxc => h (hxc ▸ List.mem_cons_self _ _)
    simp only [List.cons_append, strchr, hx, if_false]
    exact ih (fun hm => h (List.mem_cons_of_mem _ hm))

theorem c_str_no_nul (s : String) : ∀ x ∈ c_str s, x ≠ NUL := by
  intro x hx
  have := List.mem_takeWhile_imp hx
  simpa using this

theorem c_str_of_no_nul (s : String) (h : NUL ∉ s.toList) : String.mk (c_str s) = s := by
  have h2 : c_str s = s.toList := by
    unfold c_str
    rw [List.takeWhile_eq_self_iff]
    intro x hx
    have : x ≠ NUL := fun hxn => h (hxn ▸ hx)
    simpa using this
  rw [h2]
  cases s
  rfl

/-! ### Texts and their bytes -/

/-- A byte with the top bit set by `|||` is at least 128. -/
theorem or_high_bit (x K : UInt8) (hK : K.toNat.testBit 7 = true) : 128 ≤ (x ||| K).toNat := by
  have h : (x ||| K).toNat = x.toNat ||| K.toNat := by
    show (x.toBitVec ||| K.toBitVec).toNat = _
    rw [BitVec.toNat_or]
    rfl
  rw [h]
  have : (x.toNat ||| K.toNat).testBit 7 = true := by
    rw [Nat.testBit_or, hK, Bool.or_true]
  exact Nat.testBit_implies_ge this

/-- An ASCII character is encoded as its one byte. -/
theorem encode_ascii (c : Char) (h : c.val ≤ 0x7f) :
    String.utf8EncodeChar c = [c.val.toUInt8] := by
  simp [String.utf8EncodeChar, h]

/-- Every byte of the encoding of a character outside ASCII is at least 128. -/
theorem encode_high (c : Char) (h : ¬ c.val ≤ 0x7f) :
    ∀ b ∈ String.utf8EncodeChar c, 128 ≤ b.toNat := by
  intro b hb
  unfold String.utf8EncodeChar at hb
  simp only [h, if_false] at hb
  split at hb
  · simp only [List.mem_cons, List.mem_singleton, List.not_mem_nil, or_false] at hb
    rcases hb with rfl | rfl <;> exact or_high_bit _ _ (by decide)
  · split at hb
    · simp only [List.mem_cons, List.mem_singleton, List.not_mem_nil, or_false] at hb
      rcases hb with rfl | rfl | rfl <;> exact or_high_bit _ _ (by decide)
    · simp only [List.mem_cons, List.mem_singleton, List.not_mem_nil, or_false] at hb
      rcases hb with rfl | rfl | rfl | rfl <;> exact or_high_bit _ _ (by decide)

/-- The byte of an ASCII character occurs in the encoding of no other character. -/
theorem encode_not_mem (a c : Char) (ha : a.val ≤ 0x7f) (hc : c ≠ a) :
    a.val.toUInt8 ∉ String.utf8EncodeChar c := by
  intro hmem
  have ha2 : a.val.toNat ≤ 127 := ha
  have hab : a.val.toUInt8.toNat = a.val.toNat := by
    show a.val.toNat % 256 = a.val.toNat
    omega
  by_cases h : c.val ≤ 0x7f
  · rw [encode_ascii c h, List.mem_singleton] at hmem
    have hc2 : c.val.toNat ≤ 127 := h
    have hcb : c.val.toUInt8.toNat = c.val.toNat := by
      show c.val.toNat % 256 = c.val.toNat
      omega
    apply hc
    apply Char.ext
    apply UInt32.ext
    show c.val.toNat = a.val.toNat
    rw [← hab, ← hcb, hmem]
  · have := encode_high c h _ hmem
    omega

theorem utf8_cons (c : Char) (l : List Char) :
    utf8 (c :: l) = String.utf8EncodeChar c ++ utf8 l := rfl

theorem utf8_append (l m : List Char) : utf8 (l ++ m) = utf8 l ++ utf8 m := by
  unfold utf8
  exact List.flatMap_append l m _

theorem utf8_replicate_NUL (n : Nat) : utf8 (List.replicate n NUL) = List.replicate n 0 := by
  induction n with
  | zero => rfl
  | succ k ih =>
    rw [List.replicate_succ, utf8_cons, ih, List.replicate_succ]
    rfl

/-- The byte 0 occurs in the bytes of a text exactly where `NUL` occurs in
the text. -/
theorem utf8_takeWhile (l : List Char) :
    (utf8 l).takeWhile (fun b => b ≠ 0) = utf8 (l.takeWhile (fun ch => ch ≠ NUL)) := by
  induction l with
  | nil => rfl
  | cons c l ih =>
    by_cases hc : c = NUL
    · subst hc
      rw [List.takeWhile_cons_of_neg (by simp)]
      rfl
    · rw [List.takeWhile_cons_of_pos (by simpa using hc), utf8_cons, utf8_cons,
        List.takeWhile_append_of_pos, ih]
      intro b hb
      have := encode_not_mem NUL c (by decide) hc
      simp only [ne_eq, decide_not, Bool.not_eq_eq_eq_not, Bool.not_true, decide_eq_false_iff_not]
      intro h0
      subst h0
      exact this hb

theorem zero_mem_utf8 (l : List Char) : (0 : UInt8) ∈ utf8 l ↔ NUL ∈ l := by
  induction l with
  | nil => simp [utf8]
  | cons c l ih =>
    rw [utf8_cons, List.mem_append, ih, List.mem_cons]
    by_cases hc : c = NUL
    · subst hc
      constructor
      · intro _
        exact Or.inl rfl
      · intro _
        exact Or.inl (by decide)
    · have := encode_not_mem NUL c (by decide) hc
      constructor
      · rintro (h | h)
        · exact absurd h this
        · exact Or.inr h
      · rintro (h | h)
        · exact absurd h.symm hc
        · exact Or.inr h

theorem strchr_bytes_append (p l : List UInt8) (b : UInt8) (h : b ∉ p) :
    strchr_bytes (p ++ l) b = strchr_bytes l b := by
  induction p with
  | nil => rfl
  | cons x p ih =>
    rw [List.cons_append, strchr_bytes, if_neg (fun hx => h (by rw [hx]; exact List.mem_cons_self _ _))]
    exact ih (fun hm => h (List.mem_cons_of_mem _ hm))

/-- The byte 58 occurs in the bytes of a text exactly where `:` occurs in
the text, so `strchr` finds the same place in both. -/
theorem utf8_strchr (l : List Char) :
    strchr_bytes (utf8 l) 58 = (strchr l ':').map utf8 := by
  induction l with
  | nil => rfl
  | cons c l ih =>
    by_cases hc : c = ':'
    · subst hc
      rw [strchr, if_pos rfl]
      rfl
    · have h58 : (58 : UInt8) ∉ String.utf8EncodeChar c := encode_not_mem ':' c (by decide) hc
      rw [strchr, if_neg hc, utf8_cons, strchr_bytes_append _ _ _ h58, ih]

theorem strchr_head (l : List Char) (c : Char) (sc : List Char) (h : strchr l c = some sc) :
    ∃ t, sc = c :: t := by
  induction l with
  | nil => cases h
  | cons x l ih =>
    rw [strchr] at h
    by_cases hx : x = c
    · rw [if_pos hx] at h
      cases h
      exact ⟨l, by rw [hx]⟩
    · rw [if_neg hx] at h
      exact ih h

theorem copy_read_bytes (N : Nat) (src : List Char) :
    ((memcpy_into N src).bind read_c_string).map utf8 =
      (memcpy_bytes N (utf8 src)).bind read_c_bytes := by
  unfold memcpy_into memcpy_bytes strlen
  by_cases h : (utf8 src).length ≤ N
  · rw [if_pos h, if_pos h, Option.some_bind, Option.some_bind]
    unfold read_c_string read_c_bytes
    rw [← utf8_replicate_NUL, ← utf8_append]
    by_cases hm : NUL ∈ src ++ List.replicate (N - (utf8 src).length) NUL
    · rw [if_pos hm, if_pos ((zero_mem_utf8 _).2 hm), utf8_takeWhile]
      rfl
    · rw [if_neg hm, if_neg (fun h0 => hm ((zero_mem_utf8 _).1 h0))]
      rfl
  · rw [if_neg h, if_neg h]
    rfl

/-- The device name computed on texts is the one computed on their bytes. -/
theorem cfg_ifname_refines (N : Nat) (s : String) :
    ((match strchr (c_str s) ':' with
      | none => memcpy_into N (c_str s)
      | some sc => memcpy_into N sc.tail).bind read_c_string).map utf8 =
    cfg_ifname_bytes N (utf8 s.toList) := by
  have hb : cfg_ifname_bytes N (utf8 s.toList) =
      (match strchr_bytes (utf8 (c_str s)) 58 with
        | none => memcpy_bytes N (utf8 (c_str s))
        | some sc => memcpy_bytes N sc.tail).bind read_c_bytes := by
    unfold cfg_ifname_bytes c_str
    rw [utf8_takeWhile]
  rw [hb, utf8_strchr]
  cases hs : strchr (c_str s) ':' with
  | none => exact copy_read_bytes N (c_str s)
  | some sc =>
    obtain ⟨t, rfl⟩ := strchr_head _ _ _ hs
    exact copy_read_bytes N t

/-- The embedding of `linux_xdp_init_input`, which works on texts, refines
the computation on bytes: once `setrlimit` and `calloc` have succeeded it has
a result exactly when the bytes fit into `cfg.ifname`, and the bytes of the
device name it stores are the bytes the C code leaves in `cfg.ifname`. -/
theorem init_input_refines (N : Nat) (e : init_env) (libtrace : libtrace_t)
    (hr : e.setrlimit = 0) (hc : e.calloc = true) :
    (linux_xdp_init_input N e libtrace).map
      (fun r => r.2.format_data.map (fun d => utf8 d.cfg.ifname.toList)) =
    (cfg_ifname_bytes N (utf8 libtrace.uridata.toList)).map some := by
  rw [← cfg_ifname_refines]
  simp only [linux_xdp_init_input, hr, hc, ne_eq, not_true_eq_false, if_false,
    Bool.true_eq_false]
  generalize (match strchr (c_str libtrace.uridata) ':' with
    | none => memcpy_into N (c_str libtrace.uridata)
    | some sc => memcpy_into N sc.tail) = copied
  cases copied with
  | none => rfl
  | some buf =>
    simp only [Option.some_bind]
    cases hrd : read_c_string buf with
    | none => rfl
    | some name =>
      simp only [Option.map_some]
      generalize c_int (e.if_nametoindex (String.mk name) : Int) = idx
      by_cases hi : idx = -1
      · simp only [hi, if_true]
        rfl
      · simp only [hi, if_false]
        by_cases hl : e.list_init = false
        · simp only [hl, if_true]
          rfl
        · simp only [hl, if_false]
          rfl

/-- On bytes, a string without the byte `c` is searched in vain. -/
theorem strchr_bytes_none (c : UInt8) (l : List UInt8) (h : c ∉ l) : strchr_bytes l c = none := by
  have := strchr_bytes_append l [] c h
  rw [List.append_nil] at this
  rw [this]
  rfl

/-- A byte string without 0 that is shorter than the array is copied into
the zeroed array and read back from it unchanged; one that is not shorter
is not read back. -/
theorem copy_and_read_bytes (N : Nat) (src : List UInt8) (hn : ∀ x ∈ src, x ≠ 0) :
    (src.length < N → (memcpy_bytes N src).bind read_c_bytes = some src) ∧
    (N ≤ src.length → (memcpy_bytes N src).bind read_c_bytes = none) := by
  have hnot : (0 : UInt8) ∉ src := fun h => hn 0 h rfl
  constructor
  · intro hlen
    unfold memcpy_bytes
    rw [if_pos (by omega), Option.some_bind]
    unfold read_c_bytes
    have hmem : (0 : UInt8) ∈ src ++ List.replicate (N - src.length) 0 := by
      rw [List.mem_append]
      right
      exact List.mem_replicate.mpr ⟨by omega, rfl⟩
    rw [if_pos hmem, List.takeWhile_append_of_pos (by
      intro a ha
      simpa using hn a ha)]
    obtain ⟨k, hk⟩ : ∃ k, N - src.length = k + 1 := ⟨N - src.length - 1, by omega⟩
    rw [hk, List.replicate_succ, List.takeWhile_cons_of_neg (by simp), List.append_nil]
  · intro hlen
    unfold memcpy_bytes
    by_cases h : src.length ≤ N
    · rw [if_pos h, Option.some_bind]
      unfold read_c_bytes
      have h0 : N - src.length = 0 := by omega
      rw [h0, List.replicate_zero, List.append_nil, if_neg hnot]
    · rw [if_neg h]
      rfl

/-- The device name on bytes, for every content of the memory at
`libtrace->uridata`: a C string without `:` that is shorter than
`IF_NAMESIZE` is the name, after the first `:` a rest shorter than
`IF_NAMESIZE` is the name, and a name that is not shorter than
`IF_NAMESIZE` gives no defined result. -/
theorem cfg_ifname_bytes_spec (N : Nat) (uridata : List UInt8) :
    (58 ∉ uridata.takeWhile (fun b => b ≠ 0) →
      ((uridata.takeWhile (fun b => b ≠ 0)).length < N →
        cfg_ifname_bytes N uridata = some (uridata.takeWhile (fun b => b ≠ 0))) ∧
      (N ≤ (uridata.takeWhile (fun b => b ≠ 0)).length → cfg_ifname_bytes N uridata = none)) ∧
    (∀ pre name, uridata.takeWhile (fun b => b ≠ 0) = pre ++ 58 :: name → 58 ∉ pre →
      (name.length < N → cfg_ifname_bytes N uridata = some name) ∧
      (N ≤ name.length → cfg_ifname_bytes N uridata = none)) := by
  have hnz : ∀ x ∈ uridata.takeWhile (fun b => b ≠ 0), x ≠ 0 := by
    intro x hx
    simpa using List.mem_takeWhile_imp hx
  constructor
  · intro hno
    have h := copy_and_read_bytes N _ hnz
    unfold cfg_ifname_bytes
    simp only [strchr_bytes_none 58 _ hno]
    exact h
  · intro pre name hsplit hpre
    have h := copy_and_read_bytes N name (fun x hx => hnz x (by
      rw [hsplit]
      exact List.mem_append_right _ (List.mem_cons_of_mem _ hx)))
    have hs : strchr_bytes (pre ++ 58 :: name) 58 = some (58 :: name) := by
      rw [strchr_bytes_append _ _ _ hpre, strchr_bytes, if_pos rfl]
    unfold cfg_ifname_bytes
    simp only [hsplit, hs, List.tail_cons]
    exact h

/-- A name without `NUL` that takes fewer bytes than the array has is
copied into the zeroed array and read back from it unchanged. -/
theorem copy_and_read (N : Nat) (src : List Char) (hn : ∀ x ∈ src, x ≠ NUL)
    (hlen : strlen src < N) :
    memcpy_into N src = some (src ++ List.replicate (N - strlen src) NUL) ∧
    read_c_string (src ++ List.replicate (N - strlen src) NUL) = some src := by
  constructor
  · unfold memcpy_into
    rw [if_pos (by omega)]
  · unfold read_c_string
    have hmem : NUL ∈ src ++ List.replicate (N - strlen src) NUL := by
      rw [List.mem_append]
      right
      exact List.mem_replicate.mpr ⟨by omega, rfl⟩
    rw [if_pos hmem, List.takeWhile_append_of_pos (by
      intro a ha
      simpa using hn a ha)]
    obtain ⟨k, hk⟩ : ∃ k, N - strlen src = k + 1 := ⟨N - strlen src - 1, by omega⟩
    rw [hk, List.replicate_succ, List.takeWhile_cons_of_neg (by simp), List.append_nil]

theorem init_input_ifname (N : Nat) (e : init_env) (libtrace : libtrace_t) (src : List Char)
    (hr : e.setrlimit = 0) (hc : e.calloc = true)
    (hsrc : (match strchr (c_str libtrace.uridata) ':' with
      | none => memcpy_into N (c_str libtrace.uridata)
      | some sc => memcpy_into N sc.tail) = memcpy_into N src)
    (hn : ∀ x ∈ src, x ≠ NUL) (hlen : strlen src < N) :
    ∃ ret lt fd, linux_xdp_init_input N e libtrace = some (ret, lt) ∧
      lt.format_data = some fd ∧ fd.cfg.ifname = String.mk src ∧
      fd.cfg.ifindex = c_int (e.if_nametoindex (String.mk src) : Int) ∧
      (ret = 0 ∨ ret = -1) := by
  obtain ⟨h1, h2⟩ := copy_and_read N src hn hlen
  simp only [linux_xdp_init_input, hr, hc, ne_eq, not_true_eq_false, if_false, hsrc, h1, h2,
    Bool.true_eq_false]
  generalize c_int (e.if_nametoindex (String.mk src) : Int) = idx
  by_cases hi : idx = -1
  · simp only [hi, if_true]
    exact ⟨_, _, _, rfl, rfl, rfl, rfl, Or.inr rfl⟩
  · simp only [hi, if_false]
    by_cases hl : e.list_init = false
    · simp only [hl, if_true]
      exact ⟨_, _, _, rfl, rfl, rfl, rfl, Or.inr rfl⟩
    · simp only [hl, if_false]
      exact ⟨_, _, _, rfl, rfl, rfl, rfl, Or.inl rfl⟩

/-- C12 (as amended): once `setrlimit` and the allocation of the format
data have succeeded, `linux_xdp_init_input` takes as device name the whole
URI data string if it contains no `:`, and otherwise the text after the
first `:`, provided that name takes fewer bytes than `IF_NAMESIZE`, the
size of the array it is copied into.  A string without `NUL` is its own C
string. -/
theorem C12_device_name (N : Nat) (e : init_env) (libtrace : libtrace_t)
    (hr : e.setrlimit = 0) (hc : e.calloc = true) :
    (':' ∉ c_str libtrace.uridata → strlen (c_str libtrace.uridata) < N →
      ∃ ret lt fd, linux_xdp_init_input N e libtrace = some (ret, lt) ∧
        lt.format_data = some fd ∧
        fd.cfg.ifname = String.mk (c_str libtrace.uridata)) ∧
    (∀ pre name, c_str libtrace.uridata = pre ++ ':' :: name → ':' ∉ pre →
      strlen name < N →
      ∃ ret lt fd, linux_xdp_init_input N e libtrace = some (ret, lt) ∧
        lt.format_data = some fd ∧ fd.cfg.ifname = String.mk name) ∧
    (NUL ∉ libtrace.uridata.toList → String.mk (c_str libtrace.uridata) = libtrace.uridata) := by
  refine ⟨fun hno hlen => ?_, fun pre name hsplit hpre hlen => ?_,
    fun hnul => c_str_of_no_nul libtrace.uridata hnul⟩
  · obtain ⟨ret, lt, fd, h1, h2, h3, _⟩ := init_input_ifname N e libtrace
      (c_str libtrace.uridata) hr hc
      (by rw [strchr_none ':' _ hno]) (c_str_no_nul libtrace.uridata) hlen
    exact ⟨ret, lt, fd, h1, h2, h3⟩
  · obtain ⟨ret, lt, fd, h1, h2, h3, _⟩ := init_input_ifname N e libtrace name hr hc
      (by rw [hsplit, strchr_some ':' pre name hpre]; rfl)
      (fun x hx => c_str_no_nul libtrace.uridata x (by
        rw [hsplit]
        exact List.mem_append_right _ (List.mem_cons_of_mem _ hx))) hlen
    exact ⟨ret, lt, fd, h1, h2, h3⟩

/-- C12 witness: both `xdp:eth0` and `eth0` give the device name `eth0`. -/
theorem C12_device_name_witness :
    (linux_xdp_init_input 16 init_ok (trace_new "xdp:eth0")).map
      (fun r => (r.1, r.2.format_data.map (fun d => d.cfg.ifname))) = some (0, some "eth0") ∧
    (linux_xdp_init_input 16 init_ok (trace_new "eth0")).map
      (fun r => (r.1, r.2.format_data.map (fun d => d.cfg.ifname))) = some (0, some "eth0") ∧
    (':' ∉ c_str (trace_new "eth0").uridata → strlen (c_str (trace_new "eth0").uridata) < 16 →
      ∃ ret lt fd, linux_xdp_init_input 16 init_ok (trace_new "eth0") = some (ret, lt) ∧
        lt.format_data = some fd ∧
        fd.cfg.ifname = String.mk (c_str (trace_new "eth0").uridata)) :=
  ⟨by decide, by decide,
    (C12_device_name 16 init_ok (trace_new "eth0") (by decide) (by decide)).1⟩

/-- C12 counterexample: with `IF_NAMESIZE = 16` a URI data string of 96
bytes without `:` does not fit into `cfg.ifname`: `memcpy` runs past the end
of the array (and of the format data it lies in), so the call has no defined
result and the device name is not the whole string. -/
theorem C12_counterexample :
    strlen (c_str "interface-name-that-is-much-longer-than-any-network-device-name-can-be-on-linux-0123456789abcdef") = 96 ∧
    linux_xdp_init_input 16 init_ok (trace_new "interface-name-that-is-much-longer-than-any-network-device-name-can-be-on-linux-0123456789abcdef") = none ∧
    ¬ ∀ (e : init_env) (libtrace : libtrace_t), e.setrlimit = 0 → e.calloc = true →
        ':' ∉ c_str libtrace.uridata →
        ∃ ret lt fd, linux_xdp_init_input 16 e libtrace = some (ret, lt) ∧
          lt.format_data = some fd ∧ fd.cfg.ifname = libtrace.uridata := by
  have hnone : linux_xdp_init_input 16 init_ok (trace_new "interface-name-that-is-much-longer-than-any-network-device-name-can-be-on-linux-0123456789abcdef") = none := by
    decide
  refine ⟨by decide, hnone, fun h => ?_⟩
  obtain ⟨ret, lt, fd, h1, _⟩ := h init_ok (trace_new "interface-name-that-is-much-longer-than-any-network-device-name-can-be-on-linux-0123456789abcdef") rfl rfl (by decide)
  rw [hnone] at h1
  cases h1

/-- Lengths are counted in bytes: a name of 15 characters of 4 bytes each
(60 bytes) does not fit into an array of 16 bytes, while a name of 3 such
characters (12 bytes) does. -/
theorem init_input_counts_bytes :
    strlen (List.replicate 15 (Char.ofNat 128512)) = 60 ∧
    linux_xdp_init_input 16 init_ok
      (trace_new (String.mk (List.replicate 15 (Char.ofNat 128512)))) = none ∧
    (linux_xdp_init_input 16 init_ok
      (trace_new (String.mk (List.replicate 3 (Char.ofNat 128512))))).map
      (fun r => (r.1, r.2.format_data.map (fun d => d.cfg.ifname))) =
      some (0, some (String.mk (List.replicate 3 (Char.ofNat 128512)))) := by
  refine ⟨by decide, by decide, by decide⟩

end LibtraceXdp
